import Mathlib

/-!
Verification development for the custom-role analytics pipeline.

This file gives a shallow embedding of the pipeline's core operations:

* the schema prober `infer_column_type` (src/app/database/schema.py),
* the dataset importer `CustomRoleManager.import_role_data` (src/app/models/roles.py),
* the plan generator / validator `CustomRoleManager.analyze_role` (src/app/models/roles.py),
* the role-config store `create_role` / `get_role_config` (src/app/models/roles.py),
* the chart upsert / delete routes (src/app/api/custom_role_routes.py),

and proves or refutes the spec's claims about them.  Loosely-typed Python
values (parsed JSON, sqlite rows) are modelled by the inductive `JVal`;
external effects (sqlite execution, BigQuery streaming, the LLM) are
modelled by explicit oracle parameters, with exceptions modelled by
`Option` / `Except`.
-/

/-- A loosely-typed Python/JSON value: the result of `json.loads`, and also
the shape of sqlite rows converted with `dict(r)`.  Numbers are modelled as
integers (the claims under study exercise no fractional JSON numbers). -/
inductive JVal where
  | null : JVal
  | jbool : Bool → JVal
  | jnum : Int → JVal
  | jstr : String → JVal
  | jarr : List JVal → JVal
  | jobj : List (String × JVal) → JVal

/-- Field lookup in a JSON object, first match wins (Python dict keys are
unique, so first match is the only match). -/
def jlookup : List (String × JVal) → String → Option JVal
  | [], _ => none
  | (k, v) :: rest, key => if k = key then some v else jlookup rest key

/-- Python subscript `v[k]` with a string key.  `none` models the raised
exception (`KeyError` on a dict without the key, `TypeError` on any
non-dict value). -/
def pySubscript (v : JVal) (k : String) : Option JVal :=
  match v with
  | .jobj fs => jlookup fs k
  | _ => none

/-- Python `dict.get(k)`: `none` models an absent key returning `None`.
In the modelled code this is only applied to dict values. -/
def pyGet (v : JVal) (k : String) : Option JVal :=
  match v with
  | .jobj fs => jlookup fs k
  | _ => none

/-- Assignment `d[k] = v` on a dict: replaces the value when the key is
present, otherwise appends the new binding (Python insertion order). -/
def jset : List (String × JVal) → String → JVal → List (String × JVal)
  | [], k, v => [(k, v)]
  | (k', v') :: rest, k, v =>
    if k' = k then (k, v) :: rest else (k', v') :: jset rest k v

/-- Assignment `d[k] = v` lifted to `JVal`; only meaningful on objects. -/
def objSet (o : JVal) (k : String) (v : JVal) : JVal :=
  match o with
  | .jobj fs => .jobj (jset fs k v)
  | x => x

/-- Python truthiness of an optional value (`None`, empty containers,
zero and the empty string are falsy). -/
def pyTruthy (o : Option JVal) : Bool :=
  match o with
  | none => false
  | some .null => false
  | some (.jbool b) => b
  | some (.jnum n) => n != 0
  | some (.jstr s) => s ≠ ""
  | some (.jarr xs) => !xs.isEmpty
  | some (.jobj fs) => !fs.isEmpty

/-- Python iteration `for x in v`: lists yield elements, dicts yield their
keys, strings yield one-character strings; `none` models the `TypeError`
raised on non-iterable values. -/
def pyIter (v : JVal) : Option (List JVal) :=
  match v with
  | .jarr xs => some xs
  | .jobj fs => some (fs.map (fun p => .jstr p.1))
  | .jstr s => some (s.toList.map (fun c => .jstr c.toString))
  | _ => none

/-- Boolean test that an optional value is exactly a given string, the way
Python `==` compares a value against a `str` (values of other types are
never equal to a string). -/
def optIsStr (o : Option JVal) (s : String) : Bool :=
  match o with
  | some (.jstr t) => t = s
  | _ => false

/-- Check whether a list of characters begins with the given pattern. -/
def leadMatch : List Char → List Char → Bool
  | _, [] => true
  | [], _ :: _ => false
  | c :: cs, p :: ps => c = p && leadMatch cs ps

/-- Substring containment on character lists (Python `pat in s`). -/
def containsChars : List Char → List Char → Bool
  | [], pat => pat.isEmpty
  | c :: cs, pat => leadMatch (c :: cs) pat || containsChars cs pat

/-- Python `pat in s` on strings. -/
def strHasSub (s pat : String) : Bool :=
  containsChars s.toList pat.toList

/-- ASCII lower-casing of a string, character by character (models Python
`str.lower` on the ASCII column names the code handles). -/
def lowerAscii (s : String) : String :=
  String.mk (s.toList.map Char.toLower)

/-- The whitespace characters stripped by Python `str.strip()`. -/
def isPyWhite (c : Char) : Bool :=
  c = ' ' || c = '\t' || c = '\n' || c = '\r' || c = '\x0b' || c = '\x0c'

/-- Python `str.strip()` on a character list. -/
def stripChars (cs : List Char) : List Char :=
  ((cs.dropWhile isPyWhite).reverse.dropWhile isPyWhite).reverse

/-- Python `str.strip()`. -/
def stripPy (s : String) : String :=
  String.mk (stripChars s.toList)

/-- Numeric value of a list of decimal digit characters. -/
def digitsToNat (ds : List Char) : Nat :=
  ds.foldl (fun a c => a * 10 + (c.toNat - 48)) 0

/-! ### Schema prober (src/app/database/schema.py, `infer_column_type`) -/

/-- Result of Python `float(s)`: a finite decimal (sign, mantissa and
power-of-ten scale, denoting `± mantissa * 10 ^ scale`), an infinity, or a
NaN. -/
inductive PyFloat where
  | fin : Bool → Nat → Int → PyFloat
  | infinite : PyFloat
  | nan : PyFloat

/-- Mantissa and scale denoted by digits `ip.fp` times `10 ^ e`. -/
def decOfParts (ip fp : List Char) (e : Int) : Nat × Int :=
  (digitsToNat (ip ++ fp), e - fp.length)

/-- Parse the exponent digits following `e`/`E` in a float literal. -/
def parseExpTail (r : List Char) : Option Int :=
  match r with
  | '+' :: ds => if ds ≠ [] ∧ ds.all Char.isDigit then some (digitsToNat ds : Int) else none
  | '-' :: ds => if ds ≠ [] ∧ ds.all Char.isDigit then some (-(digitsToNat ds : Int)) else none
  | ds => if ds ≠ [] ∧ ds.all Char.isDigit then some (digitsToNat ds : Int) else none

/-- Parse an unsigned decimal magnitude `digits [. digits] [(e|E) exp]`,
requiring at least one mantissa digit. -/
def pyFloatMag (cs : List Char) : Option (Nat × Int) :=
  let ip := cs.takeWhile Char.isDigit
  let r1 := cs.drop ip.length
  match r1 with
  | '.' :: r2 =>
    let fp := r2.takeWhile Char.isDigit
    let r3 := r2.drop fp.length
    if ip.isEmpty && fp.isEmpty then none
    else
      match r3 with
      | [] => some (decOfParts ip fp 0)
      | c :: r4 =>
        if c = 'e' ∨ c = 'E' then (parseExpTail r4).map (decOfParts ip fp) else none
  | [] => if ip.isEmpty then none else some (decOfParts ip [] 0)
  | c :: r4 =>
    if ip.isEmpty then none
    else if c = 'e' ∨ c = 'E' then (parseExpTail r4).map (decOfParts ip []) else none

/-- Parse an unsigned float literal body, including `inf`/`infinity`/`nan`. -/
def pyFloatUnsigned (cs : List Char) : Option PyFloat :=
  let low := cs.map Char.toLower
  if low = "inf".toList ∨ low = "infinity".toList then some .infinite
  else if low = "nan".toList then some .nan
  else (pyFloatMag cs).map (fun p => .fin false p.1 p.2)

/-- Model of Python `float(s)` on the decimal-literal forms the imported data
uses (sign, digits, decimal point, exponent, `inf`/`nan`; digit-group
underscores are not modelled).  `none` models the raised `ValueError`. -/
def pyFloat (s : String) : Option PyFloat :=
  match stripChars s.toList with
  | '+' :: r => pyFloatUnsigned r
  | '-' :: r =>
    (pyFloatUnsigned r).map
      (fun v => match v with | .fin _ m sc => .fin true m sc | x => x)
  | r => pyFloatUnsigned r

/-- Python `float(s)` succeeds. -/
def pyFloatOk (s : String) : Bool := (pyFloat s).isSome

/-- Python `float(s).is_integer()` (false when `float(s)` raises or yields a
non-finite value; integrality is taken on the exact decimal value
`± mantissa * 10 ^ scale`). -/
def pyFloatIsInt (s : String) : Bool :=
  match pyFloat s with
  | some (.fin _ m sc) =>
    if 0 ≤ sc then true else m % 10 ^ (-sc).toNat = 0
  | _ => false

/-- Gregorian leap-year test. -/
def isLeap (y : Nat) : Bool := (y % 4 = 0 && y % 100 ≠ 0) || y % 400 = 0

/-- Number of days in a month. -/
def daysInMonth (y m : Nat) : Nat :=
  if m = 2 then (if isLeap y then 29 else 28)
  else if m = 4 ∨ m = 6 ∨ m = 9 ∨ m = 11 then 30 else 31

/-- All characters are decimal digits. -/
def allDigits (cs : List Char) : Bool := cs.all Char.isDigit

/-- Recognize an ISO timezone suffix: empty, `Z`, or `±HH:MM`. -/
def isoTzOk : List Char → Bool
  | [] => true
  | ['Z'] => true
  | c :: r =>
    if c = '+' ∨ c = '-' then
      match r with
      | [h1, h2, ':', m1, m2] =>
        allDigits [h1, h2, m1, m2] && digitsToNat [h1, h2] < 24 && digitsToNat [m1, m2] < 60
      | _ => false
    else false

/-- Recognize what may follow the seconds field: an optional fractional part
then an optional timezone suffix. -/
def isoFracTz (cs : List Char) : Bool :=
  match cs with
  | [] => true
  | c :: r =>
    if c = '.' ∨ c = ',' then
      let ds := r.takeWhile Char.isDigit
      ds ≠ [] && isoTzOk (r.drop ds.length)
    else isoTzOk (c :: r)

/-- Recognize an ISO time-of-day `HH[:MM[:SS[.ffffff]]][tz]`. -/
def isoTimeOk (cs : List Char) : Bool :=
  match cs with
  | h1 :: h2 :: ':' :: r =>
    allDigits [h1, h2] && digitsToNat [h1, h2] < 24 &&
    (match r with
     | m1 :: m2 :: ':' :: r2 =>
       allDigits [m1, m2] && digitsToNat [m1, m2] < 60 &&
       (match r2 with
        | s1 :: s2 :: rest =>
          allDigits [s1, s2] && digitsToNat [s1, s2] < 60 && isoFracTz rest
        | _ => false)
     | m1 :: m2 :: rest =>
       allDigits [m1, m2] && digitsToNat [m1, m2] < 60 && isoTzOk rest
     | _ => false)
  | h1 :: h2 :: rest => allDigits [h1, h2] && digitsToNat [h1, h2] < 24 && isoTzOk rest
  | _ => false

/-- Model of `datetime.fromisoformat` as a recognizer for the extended ISO
forms relevant here: `YYYY-MM-DD`, optionally followed by a single separator
character and a time-of-day (Python 3.11 semantics; calendar ranges are
validated). -/
def isoDateTimeOk (cs : List Char) : Bool :=
  match cs with
  | y1 :: y2 :: y3 :: y4 :: '-' :: m1 :: m2 :: '-' :: d1 :: d2 :: rest =>
    allDigits [y1, y2, y3, y4, m1, m2, d1, d2] &&
    (let y := digitsToNat [y1, y2, y3, y4]
     let m := digitsToNat [m1, m2]
     let d := digitsToNat [d1, d2]
     decide (1 ≤ y) && decide (1 ≤ m) && decide (m ≤ 12) &&
     decide (1 ≤ d) && decide (d ≤ daysInMonth y m)) &&
    (match rest with
     | [] => true
     | _ :: t => isoTimeOk t)
  | _ => false

/-- The per-value date test of the sample tier (schema.py lines 67-73):
the value contains `-`, `/` or `:`, is longer than 8 characters, and, after
`value.replace('/', '-').replace(' ', 'T')`, parses as an ISO timestamp. -/
def dateLikeVal (v : String) : Bool :=
  (strHasSub v "-" || strHasSub v "/" || strHasSub v ":") &&
  decide (v.length > 8) &&
  isoDateTimeOk (v.toList.map (fun c => if c = '/' then '-' else if c = ' ' then 'T' else c))

/-- The per-value boolean test of the sample tier (schema.py line 76). -/
def boolLikeVal (v : String) : Bool :=
  ["true", "false", "1", "0", "yes", "no", "y", "n"].contains (lowerAscii v)

/-- Number of sampled values that parse as numbers (empty values skipped,
matching the `continue` in schema.py lines 56-58). -/
def numericCount (l : List String) : Nat :=
  l.countP (fun x => let v := stripPy x; v != "" && pyFloatOk v)

/-- Number of sampled values that look like dates. -/
def dateCount (l : List String) : Nat :=
  l.countP (fun x => let v := stripPy x; v != "" && dateLikeVal v)

/-- Number of sampled values that look like booleans. -/
def boolCount (l : List String) : Nat :=
  l.countP (fun x => let v := stripPy x; v != "" && boolLikeVal v)

/-- Number of sampled values that are integral floats (the second loop in
schema.py lines 88-95; `float('')` raises, so empty values never count). -/
def integerCount (l : List String) : Nat :=
  l.countP (fun x => pyFloatIsInt (stripPy x))

/-- The name-pattern tier of `infer_column_type` (schema.py lines 26-40):
ordered keyword sets matched by substring against the lower-cased name. -/
def nameTier (columnName : String) : Option String :=
  let cl := lowerAscii columnName
  if ["id", "_id"].any (fun k => strHasSub cl k) then some "INTEGER"
  else if ["date", "time", "created", "updated", "timestamp"].any
      (fun k => strHasSub cl k) then some "DATETIME"
  else if ["age", "count", "number", "total", "amount", "value", "price",
      "cost", "quantity", "orders", "items"].any
      (fun k => strHasSub cl k) then some "INTEGER"
  else if ["rate", "percent", "ratio", "average", "avg", "score", "rating"].any
      (fun k => strHasSub cl k) then some "REAL"
  else if ["email", "name", "title", "description", "text", "category", "type",
      "status", "gender", "location", "source", "channel", "preference",
      "style", "size"].any (fun k => strHasSub cl k) then some "TEXT"
  else if ["is_", "has_", "active", "enabled", "visible", "public"].any
      (fun k => strHasSub cl k) then some "BOOLEAN"
  else none

/-- Model of `infer_column_type(column_name, sqlite_type, table_name, cursor)`
(schema.py lines 10-105).  The cursor side effect — fetching up to 10
non-null sample values as strings — is passed in as `sample`; `.error`
models any exception raised inside the `try` (caught at line 104).  The
Python float comparisons `count / total > 0.7` and `int / numeric > 0.8`
coincide with the exact rational comparisons at the sample sizes involved
and are modelled as `10 * count > 7 * total` and `10 * int > 8 * numeric`. -/
def infer_column_type (columnName sqliteType tableName : String)
    (sample : Except Unit (List String)) : String :=
  match nameTier columnName with
  | some t => t
  | none =>
    match sample with
    | .error _ => "TEXT"
    | .ok sampleData =>
      if sampleData.isEmpty then "TEXT"
      else
        let n := sampleData.length
        if 10 * dateCount sampleData > 7 * n then "DATETIME"
        else if 10 * boolCount sampleData > 7 * n then "BOOLEAN"
        else if 10 * numericCount sampleData > 7 * n then
          if 10 * integerCount sampleData > 8 * numericCount sampleData
          then "INTEGER" else "REAL"
        else "TEXT"

/-! ### Dataset importer (src/app/models/roles.py, `import_role_data`) -/

/-- ASCII upper-casing (Python `str.upper` on the BigQuery type names). -/
def upperAscii (s : String) : String :=
  String.mk (s.toList.map Char.toUpper)

/-- The BigQuery-to-SQLite type mapping `map_bq_type_to_sqlite`
(roles.py lines 194-200). -/
def mapBqTypeToSqlite (fieldType : String) : String :=
  let t := upperAscii fieldType
  if t = "INT64" ∨ t = "INTEGER" then "INTEGER"
  else if t = "FLOAT64" ∨ t = "NUMERIC" ∨ t = "BIGNUMERIC" ∨ t = "FLOAT" then "REAL"
  else if t = "BOOL" ∨ t = "BOOLEAN" then "INTEGER"
  else if t = "TIMESTAMP" ∨ t = "DATETIME" ∨ t = "DATE" ∨ t = "TIME" then "TEXT"
  else "TEXT"

/-- One field of a BigQuery table schema. -/
structure BqField where
  name : String
  fieldType : String
  description : Option String

/-- The `schema_descriptions` entry recorded per table
(roles.py lines 207-210). -/
structure TableDesc where
  table_description : Option String
  columns : List (String × Option String)

/-- What the BigQuery client yields for one source table: its description,
its schema, and the streamed rows.  A `.error` element in the stream models
an exception raised while iterating `client.query(...).result()` (or while
inserting the batch); the string is the exception text. -/
structure TableInfo where
  description : Option String
  schema : List BqField
  stream : List (Except String (List JVal))

/-- The `schema_descriptions[table_name]` value gathered from a table. -/
def descOfInfo (i : TableInfo) : TableDesc :=
  { table_description := i.description
    columns := i.schema.map (fun f => (f.name, f.description)) }

/-- The role configuration document (roles.py lines 106-115). -/
structure RoleConfig where
  role_name : String
  gcp_project : String
  bq_dataset : String
  bq_tables : List String
  has_sa : Bool
  created_at : String
  total_records : Nat
  schema_descriptions : List (String × TableDesc)

/-- Batched insertion of a row stream (roles.py lines 226-240): rows
accumulate in a batch of 500 which is committed when full, with a final
partial commit after the stream ends; an error mid-stream triggers
`conn.rollback()`, discarding the in-flight batch.  Returns the committed
rows and the error, if any. -/
def runBatches : List (Except String (List JVal)) → List (List JVal) →
    List (List JVal) × Option String
  | [], batch => (batch, none)
  | .error e :: _, _ => ([], some e)
  | .ok r :: rest, batch =>
    let batch' := batch ++ [r]
    if 500 ≤ batch'.length then
      let res := runBatches rest []
      (batch' ++ res.1, res.2)
    else runBatches rest batch'

/-- The error string built at roles.py line 246. -/
def importErrStr (t e : String) : String :=
  "Error importing table " ++ t ++ ": " ++ e

/-- Accumulated state of the per-table import loop. -/
structure ImportAcc where
  db : List (String × List (List JVal))
  total : Nat
  descs : List (String × TableDesc)
  err : Option String

/-- The per-table loop of `import_role_data` (roles.py lines 202-246):
tables are processed in config order; fetching table metadata can fail
(`client.get_table`), and so can row streaming; the first failure stops the
loop.  `db` records, per created table, the rows committed to the role's
SQLite database. -/
def importLoop (getTable : String → Except String TableInfo) :
    List String → List (String × List (List JVal)) → Nat →
    List (String × TableDesc) → ImportAcc
  | [], db, total, descs => ⟨db, total, descs, none⟩
  | t :: rest, db, total, descs =>
    match getTable t with
    | .error e => ⟨db, total, descs, some (importErrStr t e)⟩
    | .ok info =>
      let descs' := descs ++ [(t, descOfInfo info)]
      let res := runBatches info.stream []
      let db' := db ++ [(t, res.1)]
      let total' := total + res.1.length
      match res.2 with
      | some e => ⟨db', total', descs', some (importErrStr t e)⟩
      | none => importLoop getTable rest db' total' descs'

/-- Result of `import_role_data`.  `totalRecordsImported` models the key of
that name in the returned dict: the code returns `{"ok": True}` on success
and `{"ok": False, "error": ...}` on failure, so the key is always absent
(`none`).  `cfg` is the config file contents after the call (the post-import
config rewrite at lines 250-253 is modelled as succeeding; a file-write
failure is logged and ignored by the code). -/
structure ImportOutcome where
  ok : Bool
  error : Option String
  totalRecordsImported : Option Nat
  db : List (String × List (List JVal))
  cfg : RoleConfig

/-- Model of `CustomRoleManager.import_role_data` from the point where the
BigQuery client is available (roles.py lines 186-259).  On any table
failure the whole import aborts and the config is left unchanged; on
success `total_records` and `schema_descriptions` are overwritten with the
values gathered during the import. -/
def importRoleData (getTable : String → Except String TableInfo)
    (cfg : RoleConfig) : ImportOutcome :=
  let acc := importLoop getTable cfg.bq_tables [] 0 []
  match acc.err with
  | some e => ⟨false, some e, none, acc.db, cfg⟩
  | none =>
    ⟨true, none, none, acc.db,
     { cfg with total_records := acc.total, schema_descriptions := acc.descs }⟩

/-- Rows committed for one table when it is imported in isolation. -/
def tableCommitted (getTable : String → Except String TableInfo)
    (t : String) : List (List JVal) :=
  match getTable t with
  | .ok i => (runBatches i.stream []).1
  | .error _ => []

/-- The schema description gathered for one table. -/
def tableDescOf (getTable : String → Except String TableInfo)
    (t : String) : TableDesc :=
  match getTable t with
  | .ok i => descOfInfo i
  | .error _ => ⟨none, []⟩

/-- A table imports without error. -/
def tableImportOk (getTable : String → Except String TableInfo)
    (t : String) : Prop :=
  ∃ i, getTable t = .ok i ∧ (runBatches i.stream []).2 = none

/-- A table's import fails: either metadata fetch fails or the row stream
errors. -/
def tableImportErr (getTable : String → Except String TableInfo)
    (t : String) : Prop :=
  (∃ e, getTable t = .error e) ∨
  (∃ i e, getTable t = .ok i ∧ (runBatches i.stream []).2 = some e)

/-! ### Plan generation and validation
(src/app/models/roles.py `analyze_role`, src/services/gemini_service.py) -/

/-- Model of `_generate_json_from_model(prompt_text, default_json)`
(gemini_service.py lines 72-83): `resp` is the model response after JSON
parsing (`none` when the response is unparseable or the call raised); the
`except` clause returns `json.loads(default_json)` instead of propagating
the error.  `analyze_role` passes the analysis context JSON as
`default_json` at every call site (roles.py lines 335, 352 and 370), so
there `defaultJson` is the parsed context object `data_analysis`. -/
def jsonFromModel (resp : Option JVal) (defaultJson : JVal) : JVal :=
  resp.getD defaultJson

/-- Candidate extraction (roles.py lines 353 and 371):
`resp.get(key, []) if isinstance(resp, dict) else resp`. -/
def candListOf (resp : JVal) (key : String) : JVal :=
  match resp with
  | .jobj fs => (jlookup fs key).getD (.jarr [])
  | v => v

/-- The final plan's `insights` entry (roles.py line 405):
`concepts.get('key_concepts', []) if isinstance(concepts, dict) else []`. -/
def conceptsVal (concepts : JVal) : JVal :=
  match concepts with
  | .jobj fs => (jlookup fs "key_concepts").getD (.jarr [])
  | _ => .jarr []

/-- Outcome of processing one KPI/chart candidate in the validation loops:
kept (with the updated cursor state), silently discarded by the
per-candidate `except` handler, or fatal — the handler itself raised:
`kpi.get('title')` / `chart.get('title')` on a non-dict candidate raises
`AttributeError` (roles.py lines 382 and 399), which escapes to the outer
handler at line 409 and fails the whole analysis. -/
inductive CandRes (σ : Type) where
  | keep : σ → JVal → CandRes σ
  | drop : CandRes σ
  | fatal : CandRes σ

/-- Validation of one KPI candidate (roles.py lines 375-382): extract
`kpi['formula']` and execute it; on success annotate the KPI with the table
name and keep it.  A dict candidate whose formula is missing (`KeyError`),
non-string (`cur.execute` raises `TypeError`) or fails to execute is
discarded — the handler's `kpi.get('title')` succeeds on a dict.  A
non-dict candidate is fatal: `kpi['formula']` raises `TypeError` and then
`kpi.get('title')` inside the handler raises `AttributeError`.  `exec` is
the sqlite cursor: it threads the database state and returns the fetched
rows, `none` modelling a raised error (which leaves the state unchanged). -/
def kpiStep {σ : Type} (exec : σ → String → Option (σ × List JVal))
    (tableName : String) (s : σ) (kpi : JVal) : CandRes σ :=
  match kpi with
  | .jobj fs =>
    match jlookup fs "formula" with
    | some (.jstr f) =>
      match exec s f with
      | some (s', _) => .keep s' (objSet (.jobj fs) "table" (.jstr tableName))
      | none => .drop
    | _ => .drop
  | _ => .fatal

/-- The KPI validation loop (roles.py lines 374-382); `none` models the
`AttributeError` escaping from the discard handler on a non-dict candidate
(line 382), failing the whole analysis. -/
def validateKpis {σ : Type} (exec : σ → String → Option (σ × List JVal))
    (tableName : String) : σ → List JVal → Option (σ × List JVal)
  | s, [] => some (s, [])
  | s, kpi :: rest =>
    match kpiStep exec tableName s kpi with
    | .keep s' kpi' =>
      (validateKpis exec tableName s' rest).map (fun r => (r.1, kpi' :: r.2))
    | .drop => validateKpis exec tableName s rest
    | .fatal => none

/-- The insight generation and storage performed for a retained chart
(roles.py lines 392-397).  `genInsights` models `generate_chart_insights`
together with the statements around it that may raise (`.error`); a raised
exception is caught by the per-chart handler, leaving the chart kept and
the insight record unwritten.  `upsertIns` models the
`INSERT ... ON CONFLICT(chart_id) DO UPDATE` upsert into `chart_insights`. -/
def chartInsightPhase {σ : Type} (upsertIns : σ → JVal → JVal → List String → σ)
    (genInsights : Option JVal → List JVal → Option JVal → Except Unit (List String))
    (s : σ) (chart : JVal) (rows : List JVal) : σ :=
  match genInsights (pyGet chart "title") rows (pyGet chart "type") with
  | .error _ => s
  | .ok ins =>
    if ins ≠ [] ∧ pyTruthy (pyGet chart "id") then
      match pySubscript chart "id", pySubscript chart "title" with
      | some idv, some titlev => upsertIns s idv titlev ins
      | _, _ => s
    else s

/-- The chart validation loop (roles.py lines 384-399): execute
`chart['query_sql']`; discard on error or empty result; otherwise keep the
chart and run the insight phase, whose failure cannot remove the chart.  A
non-dict candidate is fatal — `chart['query_sql']` raises `TypeError` and
then `chart.get('title')` inside the handler raises `AttributeError`
(line 399) — modelled by `none`, failing the whole analysis. -/
def validateCharts {σ : Type} (exec : σ → String → Option (σ × List JVal))
    (upsertIns : σ → JVal → JVal → List String → σ)
    (genInsights : Option JVal → List JVal → Option JVal → Except Unit (List String)) :
    σ → List JVal → Option (σ × List JVal)
  | s, [] => some (s, [])
  | s, chart :: rest =>
    match chart with
    | .jobj fs =>
      (match jlookup fs "query_sql" with
       | some (.jstr q) =>
         (match exec s q with
          | some (s1, rows) =>
            if rows.isEmpty then
              validateCharts exec upsertIns genInsights s1 rest
            else
              let s2 := chartInsightPhase upsertIns genInsights s1 (.jobj fs) rows
              (validateCharts exec upsertIns genInsights s2 rest).map
                (fun r => (r.1, JVal.jobj fs :: r.2))
          | none => validateCharts exec upsertIns genInsights s rest)
       | _ => validateCharts exec upsertIns genInsights s rest)
    | _ => none

/-- The persisted analysis plan (`<role>.plan.json`, roles.py lines 402-406). -/
structure Plan where
  kpis : List JVal
  charts : List JVal
  insights : JVal

/-- Result of `analyze_role`.  `persisted` is the contents of the role's
plan file after the call: the prior plan on failure, the freshly written
final plan on success.  `finalState` is the role database state after the
call (uncommitted changes are discarded when the `try` block fails, since
`conn.close()` runs without a commit). -/
structure AnalyzeOutcome (σ : Type) where
  ok : Bool
  error : Option String
  planOut : Option Plan
  finalState : σ
  persisted : Option Plan

/-- Model of `CustomRoleManager.analyze_role` from the three LLM calls
onward (roles.py lines 330-418).  `contextJson` is the parsed analysis
context object (`data_analysis`, lines 309-327), which the code passes to
every `_generate_json_from_model` call as the parse-failure default;
`conceptsResp`, `kpisResp` and `chartsResp` are the parsed JSON responses
of the three calls (`none` = unparseable output or a raised call).  The
exceptions that escape the per-candidate handlers — and are caught at line
409, failing the operation and leaving the plan file untouched — are the
`TypeError` from iterating a non-iterable candidates value and the
`AttributeError` raised inside a discard handler on a non-dict candidate
(lines 382 and 399). -/
def analyze_role {σ : Type} (exec : σ → String → Option (σ × List JVal))
    (upsertIns : σ → JVal → JVal → List String → σ)
    (genInsights : Option JVal → List JVal → Option JVal → Except Unit (List String))
    (contextJson : JVal) (conceptsResp kpisResp chartsResp : Option JVal)
    (tableName : String) (s0 : σ) (prior : Option Plan) : AnalyzeOutcome σ :=
  let concepts := jsonFromModel conceptsResp contextJson
  let kpisVal := candListOf (jsonFromModel kpisResp contextJson) "kpis"
  match pyIter kpisVal with
  | none =>
    ⟨false, some "Failed during analysis generation: KPI candidates not iterable",
     none, s0, prior⟩
  | some kpiList =>
    match validateKpis exec tableName s0 kpiList with
    | none =>
      ⟨false,
       some "Failed during analysis generation: AttributeError on non-dict KPI candidate",
       none, s0, prior⟩
    | some kres =>
      let chartsVal := candListOf (jsonFromModel chartsResp contextJson) "charts"
      match pyIter chartsVal with
      | none =>
        ⟨false, some "Failed during analysis generation: chart candidates not iterable",
         none, s0, prior⟩
      | some chartList =>
        match validateCharts exec upsertIns genInsights kres.1 chartList with
        | none =>
          ⟨false,
           some "Failed during analysis generation: AttributeError on non-dict chart candidate",
           none, s0, prior⟩
        | some cres =>
          let finalPlan : Plan := ⟨kres.2, cres.2, conceptsVal concepts⟩
          ⟨true, none, some finalPlan, cres.1, some finalPlan⟩

/-- A database oracle whose queries read but never modify the state:
the lift of a pure query function. -/
def liftExec {σ : Type} (execP : String → Option (List JVal)) :
    σ → String → Option (σ × List JVal) :=
  fun s q => (execP q).map (fun rows => (s, rows))

/-! ### Chart upsert and delete routes (src/app/api/custom_role_routes.py) -/

/-- Whether a value is a Python dict (JSON object). -/
def isObjB : JVal → Bool
  | .jobj _ => true
  | _ => false

/-- Evaluate `[c.get("id") for c in charts]` (custom_role_routes.py lines 486
and 580): `none` models the `AttributeError` raised when an element is not a
dict, which fails the whole request before any write. -/
def getIdsOf : List JVal → Option (List (Option JVal))
  | [] => some []
  | .jobj fs :: rest => (getIdsOf rest).map (fun ids => jlookup fs "id" :: ids)
  | _ :: _ => none

/-- The replace-by-id / append step of `api_custom_role_create_visualization`
(custom_role_routes.py lines 486-491): if some chart's id equals the new
chart's id, every such chart is replaced by the new chart object, otherwise
the new chart is appended. -/
def upsertChart (cs : List JVal) (chartId : String) (obj : JVal) :
    Option (List JVal) :=
  match getIdsOf cs with
  | none => none
  | some ids =>
    if ids.any (fun o => optIsStr o chartId) then
      some (cs.map (fun c => if optIsStr (pyGet c "id") chartId then obj else c))
    else some (cs ++ [obj])

/-- The plan mutation performed by the upsert route (lines 493-497): only
the `charts` entry of the stored plan is reassigned before the plan file is
rewritten. -/
def planUpsertChart (stored : Plan) (chartId : String) (obj : JVal) :
    Option Plan :=
  (upsertChart stored.charts chartId obj).map
    (fun cs => { stored with charts := cs })

/-- HTTP-level outcome of the delete-chart route. -/
inductive DeleteResult where
  | notFound
  | deleted
  | serverError

/-- Result of the delete-chart route together with the stored plan after the
call. -/
structure DeleteOutcome where
  result : DeleteResult
  stored : Plan

/-- Model of `api_custom_role_delete_chart` (custom_role_routes.py lines
573-591): filter out every chart whose id equals `chartId`; if nothing was
removed, answer 404 and do not rewrite the plan file; otherwise reassign
only the plan's `charts` entry and rewrite the file. -/
def deleteChartRoute (stored : Plan) (chartId : String) : DeleteOutcome :=
  match getIdsOf stored.charts with
  | none => ⟨.serverError, stored⟩
  | some _ =>
    let charts' := stored.charts.filter (fun c => !(optIsStr (pyGet c "id") chartId))
    if charts'.length = stored.charts.length then ⟨.notFound, stored⟩
    else ⟨.deleted, { stored with charts := charts' }⟩

/-! ### Role configuration store (src/app/models/roles.py,
`create_role` / `get_role_config` / `get_role_db_path`) -/

/-- Characters kept by the role-name sanitizer (roles.py lines 36 and 422):
`ch.isalnum() or ch in ("-","_"," ")`. -/
def allowedNameChar (c : Char) : Bool :=
  c.isAlphanum || c = '-' || c = '_' || c = ' '

/-- The sanitized storage key used by `get_role_db_path` and
`get_role_config`: keep only allowed characters, strip surrounding
whitespace, replace spaces with underscores. -/
def sanitizeKey (name : String) : List Char :=
  (stripChars (name.toList.filter allowedNameChar)).map
    (fun c => if c = ' ' then '_' else c)

/-- The raw storage key used by `create_role` when writing the config file
(roles.py line 117): `role_name.replace(' ', '_')`, with no filtering and no
stripping. -/
def configKey (name : String) : List Char :=
  name.toList.map (fun c => if c = ' ' then '_' else c)

/-- The config directory as a key-value store: one config document per file
stem. -/
abbrev ConfigStore := List (List Char × RoleConfig)

/-- Read a file from the store. -/
def storeFind : ConfigStore → List Char → Option RoleConfig
  | [], _ => none
  | (k, v) :: rest, key => if k = key then some v else storeFind rest key

/-- Write (or overwrite) a file in the store. -/
def storeWrite : ConfigStore → List Char → RoleConfig → ConfigStore
  | [], key, v => [(key, v)]
  | (k, v') :: rest, key, v =>
    if k = key then (key, v) :: rest else (k, v') :: storeWrite rest key v

/-- Result of `create_role` together with the config store after the call. -/
structure CreateOutcome where
  ok : Bool
  error : Option String
  store : ConfigStore

/-- Model of `CustomRoleManager.create_role` (roles.py lines 83-132): after
the required-field check, the config document is written under the raw
space-replaced key; a non-empty `sa_json` that fails to parse makes the
operation return an error (the config file having already been written).
`saJsonValid` models whether `json.loads(sa_json)` succeeds; `now` models
`datetime.now().isoformat()`. -/
def create_role (store : ConfigStore) (roleName gcpProject bqDataset : String)
    (bqTables : List String) (saJson : String) (saJsonValid : Bool)
    (now : String) : CreateOutcome :=
  if roleName = "" ∨ gcpProject = "" ∨ bqDataset = "" ∨ bqTables = [] then
    ⟨false, some "Missing required fields", store⟩
  else
    let cfg : RoleConfig :=
      { role_name := roleName, gcp_project := gcpProject
        bq_dataset := bqDataset, bq_tables := bqTables
        has_sa := stripPy saJson ≠ "", created_at := now
        total_records := 0, schema_descriptions := [] }
    let store' := storeWrite store (configKey roleName) cfg
    if stripPy saJson ≠ "" ∧ ¬ saJsonValid then
      ⟨false, some "The provided service account credential was not valid JSON.",
       store'⟩
    else ⟨true, none, store'⟩

/-- Model of `CustomRoleManager.get_role_config` (roles.py lines 420-429):
look the config up under the sanitized key. -/
def get_role_config (store : ConfigStore) (roleName : String) :
    Option RoleConfig :=
  storeFind store (sanitizeKey roleName)

/-! ### Theorems -/

theorem nameTier_mem (n t : String) (h : nameTier n = some t) :
    t ∈ (["INTEGER", "REAL", "TEXT", "DATETIME", "BOOLEAN"] : List String) := by
  unfold nameTier at h
  dsimp only at h
  repeat' split at h <;> simp_all

/-- C5: for every input, `infer_column_type` returns one of INTEGER, REAL,
TEXT, DATETIME, BOOLEAN (the function is total — it never raises); and when
no name-pattern keyword matches, any error during data sampling, as well as
an empty sample, yields TEXT. -/
theorem c5_infer_total_and_text_default :
    (∀ (name decl tbl : String) (sample : Except Unit (List String)),
      infer_column_type name decl tbl sample ∈
        (["INTEGER", "REAL", "TEXT", "DATETIME", "BOOLEAN"] : List String)) ∧
    (∀ (name decl tbl : String), nameTier name = none →
      infer_column_type name decl tbl (.error ()) = "TEXT" ∧
      infer_column_type name decl tbl (.ok []) = "TEXT") := by
  constructor
  · intro name decl tbl sample
    unfold infer_column_type
    cases h : nameTier name with
    | some t => simpa using nameTier_mem name t h
    | none =>
      cases sample with
      | error e => simp
      | ok l =>
        dsimp only
        split_ifs <;> simp
  · intro name decl tbl h
    refine ⟨?_, ?_⟩
    · unfold infer_column_type
      rw [h]
    · unfold infer_column_type
      rw [h]
      rfl

/-- Witness for C5 at a concrete column with no keyword match. -/
theorem c5_witness :
    nameTier "misc_col" = none ∧
    infer_column_type "misc_col" "TEXT" "t" (.error ()) = "TEXT" ∧
    infer_column_type "misc_col" "TEXT" "t" (.ok []) = "TEXT" ∧
    infer_column_type "misc_col" "TEXT" "t" (.ok ["2024-01-05"]) ∈
      (["INTEGER", "REAL", "TEXT", "DATETIME", "BOOLEAN"] : List String) :=
  ⟨by decide,
   (c5_infer_total_and_text_default.2 "misc_col" "TEXT" "t" (by decide)).1,
   (c5_infer_total_and_text_default.2 "misc_col" "TEXT" "t" (by decide)).2,
   c5_infer_total_and_text_default.1 "misc_col" "TEXT" "t" (.ok ["2024-01-05"])⟩

/-- C6 counterexample: the claim says the sample tier assigns a category at
"at least 70%", but the code requires strictly more than 70% (`> 0.7`,
schema.py line 82).  A keyword-free column whose 10 samples contain exactly
7 date-like values (70%) is classified TEXT, not DATETIME. -/
theorem c6_counterexample :
    nameTier "misc_col" = none ∧
    dateCount ["2024-01-05", "2024-01-05", "2024-01-05", "2024-01-05",
      "2024-01-05", "2024-01-05", "2024-01-05", "zz", "zz", "zz"] = 7 ∧
    (["2024-01-05", "2024-01-05", "2024-01-05", "2024-01-05",
      "2024-01-05", "2024-01-05", "2024-01-05", "zz", "zz", "zz"] :
        List String).length = 10 ∧
    infer_column_type "misc_col" "TEXT" "orders"
      (.ok ["2024-01-05", "2024-01-05", "2024-01-05", "2024-01-05",
        "2024-01-05", "2024-01-05", "2024-01-05", "zz", "zz", "zz"]) = "TEXT" ∧
    ("TEXT" : String) ≠ "DATETIME" := by decide

/-- C6 (amended): the sample tier assigns a category only when strictly more
than 70% of the samples match it (and splits numeric to INTEGER only when
strictly more than 80% of numeric samples are integral): all-date samples
give DATETIME, all-integral numeric samples give INTEGER, all-non-integral
numeric samples give REAL, and at 70% or less date-likes the result is
never DATETIME. -/
theorem c6_sample_tier_strict :
    (∀ (name decl tbl : String) (samples : List String),
      nameTier name = none → samples ≠ [] →
      (∀ v ∈ samples, stripPy v ≠ "" ∧ dateLikeVal (stripPy v) = true) →
      infer_column_type name decl tbl (.ok samples) = "DATETIME") ∧
    (∀ (name decl tbl : String) (samples : List String),
      nameTier name = none → samples ≠ [] →
      (∀ v ∈ samples, stripPy v ≠ "" ∧ pyFloatOk (stripPy v) = true ∧
        pyFloatIsInt (stripPy v) = true ∧ dateLikeVal (stripPy v) = false ∧
        boolLikeVal (stripPy v) = false) →
      infer_column_type name decl tbl (.ok samples) = "INTEGER") ∧
    (∀ (name decl tbl : String) (samples : List String),
      nameTier name = none → samples ≠ [] →
      (∀ v ∈ samples, stripPy v ≠ "" ∧ pyFloatOk (stripPy v) = true ∧
        pyFloatIsInt (stripPy v) = false ∧ dateLikeVal (stripPy v) = false ∧
        boolLikeVal (stripPy v) = false) →
      infer_column_type name decl tbl (.ok samples) = "REAL") ∧
    (∀ (name decl tbl : String) (samples : List String),
      nameTier name = none →
      10 * dateCount samples ≤ 7 * samples.length →
      infer_column_type name decl tbl (.ok samples) ≠ "DATETIME") := by
  refine ⟨?_, ?_, ?_, ?_⟩
  · intro name decl tbl samples hn hne hall
    have hempty : samples.isEmpty = false := by
      cases samples with
      | nil => exact absurd rfl hne
      | cons a l => rfl
    have hlen : 0 < samples.length := List.length_pos.mpr hne
    have hd : dateCount samples = samples.length := by
      unfold dateCount
      refine List.countP_eq_length.mpr ?_
      intro a ha
      have h := hall a ha
      simp [h.1, h.2]
    unfold infer_column_type
    rw [hn]
    dsimp only
    rw [hempty]
    rw [if_neg (by simp), hd, if_pos (by omega)]
  · intro name decl tbl samples hn hne hall
    have hempty : samples.isEmpty = false := by
      cases samples with
      | nil => exact absurd rfl hne
      | cons a l => rfl
    have hlen : 0 < samples.length := List.length_pos.mpr hne
    have hd0 : dateCount samples = 0 := by
      unfold dateCount
      refine List.countP_eq_zero.mpr ?_
      intro a ha
      have h := hall a ha
      simp [h.2.2.2.1]
    have hb0 : boolCount samples = 0 := by
      unfold boolCount
      refine List.countP_eq_zero.mpr ?_
      intro a ha
      have h := hall a ha
      simp [h.2.2.2.2]
    have hnum : numericCount samples = samples.length := by
      unfold numericCount
      refine List.countP_eq_length.mpr ?_
      intro a ha
      have h := hall a ha
      simp [h.1, h.2.1]
    have hint : integerCount samples = samples.length := by
      unfold integerCount
      refine List.countP_eq_length.mpr ?_
      intro a ha
      exact (hall a ha).2.2.1
    unfold infer_column_type
    rw [hn]
    dsimp only
    rw [hempty]
    rw [if_neg (by simp), hd0, hb0, hnum, hint]
    rw [if_neg (by omega), if_neg (by omega), if_pos (by omega),
      if_pos (by omega)]
  · intro name decl tbl samples hn hne hall
    have hempty : samples.isEmpty = false := by
      cases samples with
      | nil => exact absurd rfl hne
      | cons a l => rfl
    have hlen : 0 < samples.length := List.length_pos.mpr hne
    have hd0 : dateCount samples = 0 := by
      unfold dateCount
      refine List.countP_eq_zero.mpr ?_
      intro a ha
      have h := hall a ha
      simp [h.2.2.2.1]
    have hb0 : boolCount samples = 0 := by
      unfold boolCount
      refine List.countP_eq_zero.mpr ?_
      intro a ha
      have h := hall a ha
      simp [h.2.2.2.2]
    have hnum : numericCount samples = samples.length := by
      unfold numericCount
      refine List.countP_eq_length.mpr ?_
      intro a ha
      have h := hall a ha
      simp [h.1, h.2.1]
    have hint : integerCount samples = 0 := by
      unfold integerCount
      refine List.countP_eq_zero.mpr ?_
      intro a ha
      have h := hall a ha
      simp [h.2.2.1]
    unfold infer_column_type
    rw [hn]
    dsimp only
    rw [hempty]
    rw [if_neg (by simp), hd0, hb0, hnum, hint]
    rw [if_neg (by omega), if_neg (by omega), if_pos (by omega),
      if_neg (by omega)]
  · intro name decl tbl samples hn hle
    unfold infer_column_type
    rw [hn]
    dsimp only
    by_cases he : samples.isEmpty
    · rw [if_pos he]
      decide
    · rw [if_neg he]
      rw [if_neg (by omega : ¬(10 * dateCount samples > 7 * samples.length))]
      split_ifs <;> decide

/-- Witness for C6 (amended) at the claim's own example samples, plus a
below-threshold sample that is not classified DATETIME. -/
theorem c6_amended_witness :
    infer_column_type "misc_col" "TEXT" "orders"
      (.ok ["2024-01-05", "2024-01-05", "2024-01-05", "2024-01-05",
        "2024-01-05", "2024-01-05", "2024-01-05", "2024-01-05",
        "2024-01-05", "2024-01-05"]) = "DATETIME" ∧
    infer_column_type "misc_col" "TEXT" "orders"
      (.ok ["42", "43", "44", "45", "46", "47", "48", "49", "50", "51"]) =
      "INTEGER" ∧
    infer_column_type "misc_col" "TEXT" "orders"
      (.ok ["3.5", "2.1", "3.5", "2.1", "3.5", "2.1", "3.5", "2.1", "3.5",
        "2.1"]) = "REAL" ∧
    infer_column_type "misc_col" "TEXT" "orders"
      (.ok ["2024-01-05", "2024-01-05", "2024-01-05", "2024-01-05",
        "2024-01-05", "2024-01-05", "2024-01-05", "qq", "qq", "qq"]) ≠
      "DATETIME" :=
  ⟨c6_sample_tier_strict.1 "misc_col" "TEXT" "orders" _ (by decide)
      (by decide) (by decide),
   c6_sample_tier_strict.2.1 "misc_col" "TEXT" "orders" _ (by decide)
      (by decide) (by decide),
   c6_sample_tier_strict.2.2.1 "misc_col" "TEXT" "orders" _ (by decide)
      (by decide) (by decide),
   c6_sample_tier_strict.2.2.2 "misc_col" "TEXT" "orders" _ (by decide)
      (by decide)⟩

theorem runBatches_err_multiple :
    ∀ (stream : List (Except String (List JVal))) (batch : List (List JVal)),
      batch.length < 500 → ∀ e, (runBatches stream batch).2 = some e →
      500 ∣ (runBatches stream batch).1.length := by
  intro stream
  induction stream with
  | nil =>
    intro batch _ e h
    simp [runBatches] at h
  | cons hd tl ih =>
    intro batch hb e h
    cases hd with
    | error e' =>
      simp [runBatches]
    | ok r =>
      simp only [runBatches] at h ⊢
      by_cases hc : 500 ≤ (batch ++ [r]).length
      · rw [if_pos hc] at h ⊢
        have hlen : (batch ++ [r]).length = 500 := by
          simp only [List.length_append, List.length_singleton]
          simp only [List.length_append, List.length_singleton] at hc
          omega
        have hdvd := ih [] (by simp) e h
        simp only [List.length_append, hlen]
        omega
      · rw [if_neg hc] at h ⊢
        refine ih (batch ++ [r]) ?_ e h
        simp only [List.length_append, List.length_singleton] at hc ⊢
        omega

theorem importLoop_cons_ok (getTable : String → Except String TableInfo)
    (t : String) (rest : List String) (db : List (String × List (List JVal)))
    (total : Nat) (descs : List (String × TableDesc)) (i : TableInfo)
    (hi : getTable t = .ok i) (hs : (runBatches i.stream []).2 = none) :
    importLoop getTable (t :: rest) db total descs =
      importLoop getTable rest (db ++ [(t, (runBatches i.stream []).1)])
        (total + (runBatches i.stream []).1.length)
        (descs ++ [(t, descOfInfo i)]) := by
  conv_lhs => rw [importLoop]
  rw [hi]
  dsimp only
  rw [hs]

theorem importLoop_ok_pre (getTable : String → Except String TableInfo) :
    ∀ (pre ts : List String) (db : List (String × List (List JVal)))
      (total : Nat) (descs : List (String × TableDesc)),
      (∀ t ∈ pre, tableImportOk getTable t) →
      importLoop getTable (pre ++ ts) db total descs =
        importLoop getTable ts
          (db ++ pre.map (fun t => (t, tableCommitted getTable t)))
          (total + (pre.map (fun t => (tableCommitted getTable t).length)).sum)
          (descs ++ pre.map (fun t => (t, tableDescOf getTable t))) := by
  intro pre
  induction pre with
  | nil => intro ts db total descs _; simp
  | cons t rest ih =>
    intro ts db total descs hall
    obtain ⟨i, hi, hstream⟩ := hall t (List.mem_cons_self t rest)
    have hc : tableCommitted getTable t = (runBatches i.stream []).1 := by
      unfold tableCommitted
      rw [hi]
    have hdsc : tableDescOf getTable t = descOfInfo i := by
      unfold tableDescOf
      rw [hi]
    rw [List.cons_append,
      importLoop_cons_ok getTable t (rest ++ ts) db total descs i hi hstream,
      ih ts _ _ _ (fun x hx => hall x (List.mem_cons_of_mem t hx))]
    congr 1
    · simp [hc]
    · simp only [List.map_cons, List.sum_cons, hc]
      omega
    · simp [hdsc]

theorem importLoop_ok_all (getTable : String → Except String TableInfo)
    (ts : List String) (db : List (String × List (List JVal))) (total : Nat)
    (descs : List (String × TableDesc))
    (hall : ∀ t ∈ ts, tableImportOk getTable t) :
    importLoop getTable ts db total descs =
      ⟨db ++ ts.map (fun t => (t, tableCommitted getTable t)),
       total + (ts.map (fun t => (tableCommitted getTable t).length)).sum,
       descs ++ ts.map (fun t => (t, tableDescOf getTable t)), none⟩ := by
  have h := importLoop_ok_pre getTable ts [] db total descs hall
  simpa [importLoop] using h

theorem importLoop_err_head (getTable : String → Except String TableInfo)
    (bad : String) (rest : List String)
    (db : List (String × List (List JVal))) (total : Nat)
    (descs : List (String × TableDesc)) (h : tableImportErr getTable bad) :
    ∃ m, importLoop getTable (bad :: rest) db total descs =
      ⟨db ++ (match getTable bad with
              | .error _ => []
              | .ok i => [(bad, (runBatches i.stream []).1)]),
       (match getTable bad with
        | .error _ => total
        | .ok i => total + (runBatches i.stream []).1.length),
       (match getTable bad with
        | .error _ => descs
        | .ok i => descs ++ [(bad, descOfInfo i)]),
       some (importErrStr bad m)⟩ := by
  rcases h with ⟨e, he⟩ | ⟨i, e, hi, hs⟩
  · refine ⟨e, ?_⟩
    conv_lhs => rw [importLoop]
    rw [he]
    simp
  · refine ⟨e, ?_⟩
    conv_lhs => rw [importLoop]
    rw [hi]
    dsimp only
    rw [hs]

/-- C3: if importing any source table fails, `import_role_data` aborts the
entire import, returns `ok = false` with an error message naming the failed
table, leaves the config (in particular `total_records`) unchanged, and
touches no table after the failed one; moreover the in-flight batch is
rolled back — when a stream fails, the committed rows always form whole
batches of 500. -/
theorem c3_import_failure :
    (∀ (getTable : String → Except String TableInfo) (cfg : RoleConfig)
       (pre : List String) (bad : String) (rest : List String),
      cfg.bq_tables = pre ++ bad :: rest →
      (∀ t ∈ pre, tableImportOk getTable t) →
      tableImportErr getTable bad →
      (importRoleData getTable cfg).ok = false ∧
      (∃ m, (importRoleData getTable cfg).error = some (importErrStr bad m)) ∧
      (importRoleData getTable cfg).cfg = cfg ∧
      (importRoleData getTable cfg).db =
        pre.map (fun t => (t, tableCommitted getTable t)) ++
        (match getTable bad with
         | .error _ => []
         | .ok i => [(bad, (runBatches i.stream []).1)])) ∧
    (∀ (stream : List (Except String (List JVal))) (e : String),
      (runBatches stream []).2 = some e →
      500 ∣ (runBatches stream []).1.length) := by
  constructor
  · intro getTable cfg pre bad rest htab hpre hbad
    obtain ⟨m, hloop⟩ := importLoop_err_head getTable bad rest
      (pre.map (fun t => (t, tableCommitted getTable t)))
      ((pre.map (fun t => (tableCommitted getTable t).length)).sum)
      (pre.map (fun t => (t, tableDescOf getTable t))) hbad
    unfold importRoleData
    rw [htab, importLoop_ok_pre getTable pre (bad :: rest) [] 0 [] hpre]
    simp only [List.nil_append, Nat.zero_add]
    rw [hloop]
    dsimp only
    exact ⟨rfl, ⟨m, rfl⟩, rfl, rfl⟩
  · intro stream e h
    exact runBatches_err_multiple stream [] (by simp) e h

/-- Witness for C3: three tables, the second fails with an auth error after
one streamed row; the result is a failure naming `t2` and the config is
untouched. -/
theorem c3_witness :
    (importRoleData
      (fun t =>
        if t = "t1" then .ok ⟨none, [], [.ok [.jnum 1], .ok [.jnum 2]]⟩
        else if t = "t2" then .ok ⟨none, [], [.ok [.jnum 3], .error "auth failed"]⟩
        else .error "unreachable")
      ⟨"Pricing Analyst", "proj", "ds", ["t1", "t2", "t3"], false,
        "2024-01-01T00:00:00", 0, []⟩).ok = false ∧
    (∃ m, (importRoleData
      (fun t =>
        if t = "t1" then .ok ⟨none, [], [.ok [.jnum 1], .ok [.jnum 2]]⟩
        else if t = "t2" then .ok ⟨none, [], [.ok [.jnum 3], .error "auth failed"]⟩
        else .error "unreachable")
      ⟨"Pricing Analyst", "proj", "ds", ["t1", "t2", "t3"], false,
        "2024-01-01T00:00:00", 0, []⟩).error = some (importErrStr "t2" m)) ∧
    (importRoleData
      (fun t =>
        if t = "t1" then .ok ⟨none, [], [.ok [.jnum 1], .ok [.jnum 2]]⟩
        else if t = "t2" then .ok ⟨none, [], [.ok [.jnum 3], .error "auth failed"]⟩
        else .error "unreachable")
      ⟨"Pricing Analyst", "proj", "ds", ["t1", "t2", "t3"], false,
        "2024-01-01T00:00:00", 0, []⟩).cfg =
      ⟨"Pricing Analyst", "proj", "ds", ["t1", "t2", "t3"], false,
        "2024-01-01T00:00:00", 0, []⟩ := by
  have h := c3_import_failure.1
    (fun t =>
      if t = "t1" then .ok ⟨none, [], [.ok [.jnum 1], .ok [.jnum 2]]⟩
      else if t = "t2" then .ok ⟨none, [], [.ok [.jnum 3], .error "auth failed"]⟩
      else .error "unreachable")
    ⟨"Pricing Analyst", "proj", "ds", ["t1", "t2", "t3"], false,
      "2024-01-01T00:00:00", 0, []⟩
    ["t1"] "t2" ["t3"] rfl
    (by
      intro t ht
      simp only [List.mem_singleton] at ht
      subst ht
      exact ⟨⟨none, [], [.ok [.jnum 1], .ok [.jnum 2]]⟩, rfl, rfl⟩)
    (Or.inr ⟨⟨none, [], [.ok [.jnum 3], .error "auth failed"]⟩, "auth failed",
      rfl, rfl⟩)
  exact ⟨h.1, h.2.1, h.2.2.1⟩

/-- C4 counterexample: a successful import returns only `{"ok": True}`
(roles.py line 259) — the result carries no `totalRecordsImported` value,
even though the total (here 2 rows) was computed and stored in the config.
This refutes the claimed result shape `{ok, totalRecordsImported}`. -/
theorem c4_counterexample :
    (importRoleData
      (fun _ => .ok ⟨none, [], [.ok [.jnum 1], .ok [.jnum 2]]⟩)
      ⟨"r", "p", "d", ["t1"], false, "now", 0, []⟩).ok = true ∧
    (importRoleData
      (fun _ => .ok ⟨none, [], [.ok [.jnum 1], .ok [.jnum 2]]⟩)
      ⟨"r", "p", "d", ["t1"], false, "now", 0, []⟩).totalRecordsImported =
      none ∧
    (importRoleData
      (fun _ => .ok ⟨none, [], [.ok [.jnum 1], .ok [.jnum 2]]⟩)
      ⟨"r", "p", "d", ["t1"], false, "now", 0, []⟩).cfg.total_records = 2 := by
  refine ⟨rfl, rfl, rfl⟩

/-- C4 (amended): on success `import_role_data` returns `ok = true` with no
error and no `totalRecordsImported` entry (the row total is recorded only in
the config), and overwrites the config's `total_records` and
`schema_descriptions` with the values gathered during the import. -/
theorem c4_import_success_updates_config :
    ∀ (getTable : String → Except String TableInfo) (cfg : RoleConfig),
      (∀ t ∈ cfg.bq_tables, tableImportOk getTable t) →
      importRoleData getTable cfg =
        ⟨true, none, none,
         cfg.bq_tables.map (fun t => (t, tableCommitted getTable t)),
         { cfg with
           total_records :=
             (cfg.bq_tables.map
               (fun t => (tableCommitted getTable t).length)).sum,
           schema_descriptions :=
             cfg.bq_tables.map (fun t => (t, tableDescOf getTable t)) }⟩ := by
  intro getTable cfg hall
  unfold importRoleData
  rw [importLoop_ok_all getTable cfg.bq_tables [] 0 [] hall]
  simp

/-- Witness for C4 (amended) at a concrete two-table import. -/
theorem c4_witness :
    importRoleData
      (fun t =>
        if t = "a" then .ok ⟨some "da", [⟨"c1", "INT64", some "col one"⟩],
          [.ok [.jnum 1], .ok [.jnum 2]]⟩
        else .ok ⟨none, [], [.ok [.jnum 3]]⟩)
      ⟨"r", "p", "d", ["a", "b"], false, "now", 7, []⟩ =
      ⟨true, none, none,
       (["a", "b"] : List String).map (fun t => (t, tableCommitted
         (fun t =>
           if t = "a" then .ok ⟨some "da", [⟨"c1", "INT64", some "col one"⟩],
             [.ok [.jnum 1], .ok [.jnum 2]]⟩
           else .ok ⟨none, [], [.ok [.jnum 3]]⟩) t)),
       { (⟨"r", "p", "d", ["a", "b"], false, "now", 7, []⟩ : RoleConfig) with
         total_records :=
           ((["a", "b"] : List String).map (fun t => (tableCommitted
             (fun t =>
               if t = "a" then .ok ⟨some "da", [⟨"c1", "INT64", some "col one"⟩],
                 [.ok [.jnum 1], .ok [.jnum 2]]⟩
               else .ok ⟨none, [], [.ok [.jnum 3]]⟩) t).length)).sum,
         schema_descriptions :=
           (["a", "b"] : List String).map (fun t => (t, tableDescOf
             (fun t =>
               if t = "a" then .ok ⟨some "da", [⟨"c1", "INT64", some "col one"⟩],
                 [.ok [.jnum 1], .ok [.jnum 2]]⟩
               else .ok ⟨none, [], [.ok [.jnum 3]]⟩) t)) }⟩ :=
  c4_import_success_updates_config
    (fun t =>
      if t = "a" then .ok ⟨some "da", [⟨"c1", "INT64", some "col one"⟩],
        [.ok [.jnum 1], .ok [.jnum 2]]⟩
      else .ok ⟨none, [], [.ok [.jnum 3]]⟩)
    ⟨"r", "p", "d", ["a", "b"], false, "now", 7, []⟩
    (by
      intro t ht
      simp at ht
      rcases ht with rfl | rfl
      · exact ⟨⟨some "da", [⟨"c1", "INT64", some "col one"⟩],
          [.ok [.jnum 1], .ok [.jnum 2]]⟩, rfl, rfl⟩
      · exact ⟨⟨none, [], [.ok [.jnum 3]]⟩, rfl, rfl⟩)

theorem jset_lookup_ne (fs : List (String × JVal)) (k k' : String) (v : JVal)
    (h : k ≠ k') : jlookup (jset fs k v) k' = jlookup fs k' := by
  induction fs with
  | nil => simp [jset, jlookup, h]
  | cons p rest ih =>
    obtain ⟨k0, v0⟩ := p
    by_cases h0 : k0 = k
    · subst h0
      simp [jset, jlookup, h]
    · simp only [jset, jlookup, if_neg h0]
      by_cases h1 : k0 = k'
      · simp [jlookup, h1]
      · simp [jlookup, h1, ih]

theorem kpiStep_liftExec {σ : Type} (execP : String → Option (List JVal))
    (tableName : String) (s s' : σ) (kpi kpi' : JVal)
    (h : kpiStep (liftExec execP) tableName s kpi = .keep s' kpi') :
    ∃ f, pySubscript kpi' "formula" = some (.jstr f) ∧ (execP f).isSome := by
  cases kpi with
  | jobj fs =>
    unfold kpiStep at h
    dsimp only at h
    cases hf : jlookup fs "formula" with
    | none => rw [hf] at h; simp at h
    | some v =>
      rw [hf] at h
      cases v with
      | jstr f =>
        cases hq : execP f with
        | none => simp [liftExec, hq] at h
        | some rows =>
          simp only [liftExec, hq, Option.map_some'] at h
          cases h
          refine ⟨f, ?_, by simp [hq]⟩
          simpa [pySubscript, objSet] using
            (jset_lookup_ne fs "table" "formula" (.jstr tableName)
              (by decide)).trans hf
      | null => simp at h
      | jbool b => simp at h
      | jnum n => simp at h
      | jarr xs => simp at h
      | jobj fs2 => simp at h
  | null => simp [kpiStep] at h
  | jbool b => simp [kpiStep] at h
  | jnum n => simp [kpiStep] at h
  | jstr s2 => simp [kpiStep] at h
  | jarr xs => simp [kpiStep] at h

theorem validateKpis_liftExec_mem {σ : Type} (execP : String → Option (List JVal))
    (tableName : String) :
    ∀ (l : List JVal) (s : σ) (res : σ × List JVal),
      validateKpis (liftExec execP) tableName s l = some res →
      ∀ k ∈ res.2, ∃ f, pySubscript k "formula" = some (.jstr f) ∧
        (execP f).isSome := by
  intro l
  induction l with
  | nil =>
    intro s res h k hk
    rw [validateKpis] at h
    cases h
    simp at hk
  | cons kpi rest ih =>
    intro s res h k hk
    rw [validateKpis] at h
    cases hstep : kpiStep (liftExec execP) tableName s kpi with
    | keep s' kpi' =>
      rw [hstep] at h
      dsimp only at h
      cases hrec : validateKpis (liftExec execP) tableName s' rest with
      | none => rw [hrec] at h; simp at h
      | some r =>
        rw [hrec] at h
        simp only [Option.map_some', Option.some_inj] at h
        subst h
        dsimp only at hk
        rcases List.mem_cons.mp hk with hEq | hMem
        · subst hEq
          exact kpiStep_liftExec execP tableName s s' kpi k hstep
        · exact ih s' r hrec k hMem
    | drop =>
      rw [hstep] at h
      exact ih s res h k hk
    | fatal => rw [hstep] at h; simp at h

theorem validateCharts_liftExec_mem {σ : Type}
    (execP : String → Option (List JVal))
    (upsertIns : σ → JVal → JVal → List String → σ)
    (genInsights : Option JVal → List JVal → Option JVal →
      Except Unit (List String)) :
    ∀ (l : List JVal) (s : σ) (res : σ × List JVal),
      validateCharts (liftExec execP) upsertIns genInsights s l = some res →
      ∀ c ∈ res.2, ∃ q rows, pySubscript c "query_sql" = some (.jstr q) ∧
        execP q = some rows ∧ rows ≠ [] := by
  intro l
  induction l with
  | nil =>
    intro s res h c hc
    rw [validateCharts] at h
    cases h
    simp at hc
  | cons chart rest ih =>
    intro s res h c hc
    cases chart with
    | jobj fs =>
      rw [validateCharts] at h
      cases hq : jlookup fs "query_sql" with
      | none => rw [hq] at h; exact ih s res h c hc
      | some v =>
        rw [hq] at h
        cases v with
        | jstr q =>
          cases hrows : execP q with
          | none =>
            simp only [liftExec, hrows, Option.map_none'] at h
            exact ih s res h c hc
          | some rows =>
            simp only [liftExec, hrows, Option.map_some'] at h
            by_cases hemp : rows.isEmpty
            · rw [if_pos hemp] at h
              exact ih s res h c hc
            · rw [if_neg hemp] at h
              cases hrec : validateCharts (liftExec execP) upsertIns
                  genInsights
                  (chartInsightPhase upsertIns genInsights s (.jobj fs) rows)
                  rest with
              | none => rw [hrec] at h; simp at h
              | some r =>
                rw [hrec] at h
                simp only [Option.map_some', Option.some_inj] at h
                subst h
                dsimp only at hc
                rcases List.mem_cons.mp hc with hEq | hMem
                · subst hEq
                  refine ⟨q, rows, ?_, hrows, ?_⟩
                  · simpa [pySubscript] using hq
                  · intro hnil
                    subst hnil
                    simp at hemp
                · exact ih _ r hrec c hMem
        | null => exact ih s res h c hc
        | jbool b => exact ih s res h c hc
        | jnum n => exact ih s res h c hc
        | jarr xs => exact ih s res h c hc
        | jobj fs2 => exact ih s res h c hc
    | null => exact Option.noConfusion h
    | jbool b => exact Option.noConfusion h
    | jnum n => exact Option.noConfusion h
    | jstr s2 => exact Option.noConfusion h
    | jarr xs => exact Option.noConfusion h

theorem validateKpis_fatal {σ : Type}
    (exec : σ → String → Option (σ × List JVal)) (tableName : String) :
    ∀ (l : List JVal) (s : σ), (∃ k ∈ l, isObjB k = false) →
      validateKpis exec tableName s l = none := by
  intro l
  induction l with
  | nil =>
    intro s h
    obtain ⟨k, hk, -⟩ := h
    simp at hk
  | cons a rest ih =>
    intro s h
    obtain ⟨k, hk, hko⟩ := h
    rw [validateKpis]
    rcases List.mem_cons.mp hk with hEq | hMem
    · subst hEq
      cases k with
      | jobj fs => simp [isObjB] at hko
      | null => rfl
      | jbool b => rfl
      | jnum n => rfl
      | jstr s2 => rfl
      | jarr xs => rfl
    · cases hstep : kpiStep exec tableName s a with
      | keep s' kpi' =>
        dsimp only
        rw [ih s' ⟨k, hMem, hko⟩]
        rfl
      | drop => exact ih s ⟨k, hMem, hko⟩
      | fatal => rfl

theorem validateCharts_isSome {σ : Type}
    (exec : σ → String → Option (σ × List JVal))
    (upsertIns : σ → JVal → JVal → List String → σ)
    (genInsights : Option JVal → List JVal → Option JVal →
      Except Unit (List String)) :
    ∀ (l : List JVal) (s : σ),
      (validateCharts exec upsertIns genInsights s l).isSome =
        l.all isObjB := by
  intro l
  induction l with
  | nil => intro s; rfl
  | cons chart rest ih =>
    intro s
    cases chart with
    | jobj fs =>
      rw [validateCharts, List.all_cons,
        show isObjB (JVal.jobj fs) = true from rfl, Bool.true_and]
      cases hq : jlookup fs "query_sql" with
      | none => exact ih s
      | some v =>
        cases v with
        | jstr q =>
          dsimp only
          cases he : exec s q with
          | none => exact ih s
          | some pr =>
            obtain ⟨s1, rows⟩ := pr
            dsimp only
            by_cases hemp : rows.isEmpty
            · rw [if_pos hemp]
              exact ih s1
            · rw [if_neg hemp]
              have hrest := ih
                (chartInsightPhase upsertIns genInsights s1 (.jobj fs) rows)
              cases hrec : validateCharts exec upsertIns genInsights
                  (chartInsightPhase upsertIns genInsights s1 (.jobj fs) rows)
                  rest with
              | none => rw [hrec] at hrest; simpa using hrest
              | some r => rw [hrec] at hrest; simpa using hrest
        | null => exact ih s
        | jbool b => exact ih s
        | jnum n => exact ih s
        | jarr xs => exact ih s
        | jobj fs2 => exact ih s
    | null => rfl
    | jbool b => rfl
    | jnum n => rfl
    | jstr s2 => rfl
    | jarr xs => rfl

/-- C1 counterexample: validation executes queries against a connection that
is mutated during the same run (the `chart_insights` upsert at roles.py
lines 394-397 happens after a chart is retained).  A chart whose query
observes that table — modelled by a store state counting stored insight ids
— passes validation with one row while `chart_insights` is still empty, is
persisted, and `analyze` returns ok; but the same query executed against the
role's store after `analyze` completes returns zero rows, violating the
claimed invariant. -/
theorem c1_counterexample :
    (analyze_role
      (fun (s : List JVal) q =>
        if q = "SELECT 1 WHERE (SELECT COUNT(id) FROM chart_insights) = 0"
        then some (s, if s.isEmpty then [.jobj [("1", .jnum 1)]] else [])
        else none)
      (fun s idv _ _ => s ++ [idv])
      (fun _ _ _ => Except.ok ["insight"])
      (.jobj [("role_name", .jstr "r"), ("schema_descriptions", .jobj []),
        ("tables", .jobj [])])
      (some (.jobj []))
      (some (.jobj [("kpis", .jarr [])]))
      (some (.jobj [("charts", .jarr [.jobj [("id", .jstr "c1"),
        ("title", .jstr "T"), ("type", .jstr "bar"),
        ("query_sql", .jstr
          "SELECT 1 WHERE (SELECT COUNT(id) FROM chart_insights) = 0")]])]))
      "orders" [] none).ok = true ∧
    (analyze_role
      (fun (s : List JVal) q =>
        if q = "SELECT 1 WHERE (SELECT COUNT(id) FROM chart_insights) = 0"
        then some (s, if s.isEmpty then [.jobj [("1", .jnum 1)]] else [])
        else none)
      (fun s idv _ _ => s ++ [idv])
      (fun _ _ _ => Except.ok ["insight"])
      (.jobj [("role_name", .jstr "r"), ("schema_descriptions", .jobj []),
        ("tables", .jobj [])])
      (some (.jobj []))
      (some (.jobj [("kpis", .jarr [])]))
      (some (.jobj [("charts", .jarr [.jobj [("id", .jstr "c1"),
        ("title", .jstr "T"), ("type", .jstr "bar"),
        ("query_sql", .jstr
          "SELECT 1 WHERE (SELECT COUNT(id) FROM chart_insights) = 0")]])]))
      "orders" [] none).persisted =
      some ⟨[], [.jobj [("id", .jstr "c1"), ("title", .jstr "T"),
        ("type", .jstr "bar"),
        ("query_sql", .jstr
          "SELECT 1 WHERE (SELECT COUNT(id) FROM chart_insights) = 0")]],
        .jarr []⟩ ∧
    ((fun (s : List JVal) (q : String) =>
        if q = "SELECT 1 WHERE (SELECT COUNT(id) FROM chart_insights) = 0"
        then some (s, if s.isEmpty then [JVal.jobj [("1", JVal.jnum 1)]] else [])
        else (none : Option (List JVal × List JVal)))
      (analyze_role
        (fun (s : List JVal) q =>
          if q = "SELECT 1 WHERE (SELECT COUNT(id) FROM chart_insights) = 0"
          then some (s, if s.isEmpty then [.jobj [("1", .jnum 1)]] else [])
          else none)
        (fun s idv _ _ => s ++ [idv])
        (fun _ _ _ => Except.ok ["insight"])
        (.jobj [("role_name", .jstr "r"), ("schema_descriptions", .jobj []),
          ("tables", .jobj [])])
        (some (.jobj []))
        (some (.jobj [("kpis", .jarr [])]))
        (some (.jobj [("charts", .jarr [.jobj [("id", .jstr "c1"),
          ("title", .jstr "T"), ("type", .jstr "bar"),
          ("query_sql", .jstr
            "SELECT 1 WHERE (SELECT COUNT(id) FROM chart_insights) = 0")]])]))
        "orders" [] none).finalState
      "SELECT 1 WHERE (SELECT COUNT(id) FROM chart_insights) = 0") =
      some ([JVal.jstr "c1"], ([] : List JVal)) := by
  refine ⟨rfl, rfl, rfl⟩

/-- C1 (amended): for a store whose query execution does not depend on the
mutable connection state (`liftExec` of a pure query function — in
particular any store the run does not mutate), if `analyze_role` succeeds
then every KPI formula in the persisted plan executes successfully and every
chart query executes successfully with at least one row; no candidate that
failed execution validation is persisted. -/
theorem c1_persisted_plan_valid {σ : Type}
    (execP : String → Option (List JVal))
    (upsertIns : σ → JVal → JVal → List String → σ)
    (genInsights : Option JVal → List JVal → Option JVal →
      Except Unit (List String))
    (contextJson : JVal) (conceptsResp kpisResp chartsResp : Option JVal)
    (tableName : String) (s0 : σ) (prior : Option Plan) (p : Plan)
    (hok : (analyze_role (liftExec execP) upsertIns genInsights contextJson
      conceptsResp kpisResp chartsResp tableName s0 prior).ok = true)
    (hp : (analyze_role (liftExec execP) upsertIns genInsights contextJson
      conceptsResp kpisResp chartsResp tableName s0 prior).persisted =
      some p) :
    (∀ kpi ∈ p.kpis, ∃ f, pySubscript kpi "formula" = some (.jstr f) ∧
      (execP f).isSome) ∧
    (∀ c ∈ p.charts, ∃ q rows, pySubscript c "query_sql" = some (.jstr q) ∧
      execP q = some rows ∧ rows ≠ []) := by
  unfold analyze_role at hok hp
  dsimp only at hok hp
  cases h1 : pyIter (candListOf (jsonFromModel kpisResp contextJson)
      "kpis") with
  | none => rw [h1] at hok; simp at hok
  | some kpiList =>
    rw [h1] at hok hp
    dsimp only at hok hp
    cases hv1 : validateKpis (liftExec execP) tableName s0 kpiList with
    | none => rw [hv1] at hok; simp at hok
    | some kres =>
      rw [hv1] at hok hp
      dsimp only at hok hp
      cases h2 : pyIter (candListOf (jsonFromModel chartsResp contextJson)
          "charts") with
      | none => rw [h2] at hok; simp at hok
      | some chartList =>
        rw [h2] at hok hp
        dsimp only at hok hp
        cases hv2 : validateCharts (liftExec execP) upsertIns genInsights
            kres.1 chartList with
        | none => rw [hv2] at hok; simp at hok
        | some cres =>
          rw [hv2] at hp
          dsimp only at hp
          rw [Option.some_inj] at hp
          subst hp
          constructor
          · intro kpi hk
            exact validateKpis_liftExec_mem execP tableName kpiList s0 kres
              hv1 kpi hk
          · intro c hc
            exact validateCharts_liftExec_mem execP upsertIns genInsights
              chartList kres.1 cres hv2 c hc

/-- Witness for C1 (amended): a pure store where one KPI and one chart
validate, one KPI errors and one chart returns no rows; the persisted plan
keeps exactly the valid ones and each persisted query succeeds non-empty. -/
theorem c1_witness :
    (analyze_role
      (liftExec (fun q => if q = "K" then some [JVal.jobj []]
        else if q = "C" then some [JVal.jobj [("x", JVal.jnum 1)]]
        else if q = "E" then some [] else none))
      (fun (s : Unit) _ _ _ => s)
      (fun _ _ _ => Except.ok ["i"])
      (.jobj [("role_name", .jstr "r"), ("schema_descriptions", .jobj []),
        ("tables", .jobj [])])
      (some (.jobj []))
      (some (.jobj [("kpis", .jarr [.jobj [("id", .jstr "k1"),
        ("formula", .jstr "K")], .jobj [("formula", .jstr "NOPE")]])]))
      (some (.jobj [("charts", .jarr [.jobj [("id", .jstr "c1"),
        ("title", .jstr "T"), ("type", .jstr "bar"),
        ("query_sql", .jstr "C")], .jobj [("query_sql", .jstr "E")]])]))
      "orders" () none).persisted =
      some ⟨[.jobj [("id", .jstr "k1"), ("formula", .jstr "K"),
        ("table", .jstr "orders")]],
        [.jobj [("id", .jstr "c1"), ("title", .jstr "T"),
          ("type", .jstr "bar"), ("query_sql", .jstr "C")]], .jarr []⟩ ∧
    (∀ kpi ∈ ([.jobj [("id", .jstr "k1"), ("formula", .jstr "K"),
        ("table", .jstr "orders")]] : List JVal),
      ∃ f, pySubscript kpi "formula" = some (.jstr f) ∧
        ((fun q => if q = "K" then some [JVal.jobj []]
          else if q = "C" then some [JVal.jobj [("x", JVal.jnum 1)]]
          else if q = "E" then some [] else none) f).isSome) ∧
    (∀ c ∈ ([.jobj [("id", .jstr "c1"), ("title", .jstr "T"),
        ("type", .jstr "bar"), ("query_sql", .jstr "C")]] : List JVal),
      ∃ q rows, pySubscript c "query_sql" = some (.jstr q) ∧
        (fun qq => if qq = "K" then some [JVal.jobj []]
          else if qq = "C" then some [JVal.jobj [("x", JVal.jnum 1)]]
          else if qq = "E" then some [] else none) q = some rows ∧
        rows ≠ []) := by
  have h := c1_persisted_plan_valid
    (fun q => if q = "K" then some [JVal.jobj []]
      else if q = "C" then some [JVal.jobj [("x", JVal.jnum 1)]]
      else if q = "E" then some [] else none)
    (fun (s : Unit) _ _ _ => s)
    (fun _ _ _ => Except.ok ["i"])
    (.jobj [("role_name", .jstr "r"), ("schema_descriptions", .jobj []),
      ("tables", .jobj [])])
    (some (.jobj []))
    (some (.jobj [("kpis", .jarr [.jobj [("id", .jstr "k1"),
      ("formula", .jstr "K")], .jobj [("formula", .jstr "NOPE")]])]))
    (some (.jobj [("charts", .jarr [.jobj [("id", .jstr "c1"),
      ("title", .jstr "T"), ("type", .jstr "bar"),
      ("query_sql", .jstr "C")], .jobj [("query_sql", .jstr "E")]])]))
    "orders" () none
    ⟨[.jobj [("id", .jstr "k1"), ("formula", .jstr "K"),
      ("table", .jstr "orders")]],
      [.jobj [("id", .jstr "c1"), ("title", .jstr "T"),
        ("type", .jstr "bar"), ("query_sql", .jstr "C")]], .jarr []⟩
    rfl rfl
  exact ⟨rfl, h.1, h.2⟩

/-- C2 counterexample: when the LLM output is unparseable,
`_generate_json_from_model` falls back to its parsed default — in
`analyze_role` that default is the analysis context object, which carries
no kpis/charts/key_concepts entries — so `analyze_role` does NOT fail: it
succeeds with empty candidate lists and rewrites the plan file, clobbering
the prior plan (here a plan holding one KPI) with an empty plan. -/
theorem c2_counterexample :
    (analyze_role (liftExec (fun _ => (none : Option (List JVal))))
      (fun (s : Unit) _ _ _ => s) (fun _ _ _ => Except.error ())
      (.jobj [("role_name", .jstr "r"), ("schema_descriptions", .jobj []),
        ("tables", .jobj [])])
      none none none "orders" ()
      (some ⟨[.jobj [("formula", .jstr "SELECT AVG(price) FROM orders")]],
        [], .jarr []⟩)).ok = true ∧
    (analyze_role (liftExec (fun _ => (none : Option (List JVal))))
      (fun (s : Unit) _ _ _ => s) (fun _ _ _ => Except.error ())
      (.jobj [("role_name", .jstr "r"), ("schema_descriptions", .jobj []),
        ("tables", .jobj [])])
      none none none "orders" ()
      (some ⟨[.jobj [("formula", .jstr "SELECT AVG(price) FROM orders")]],
        [], .jarr []⟩)).error = none ∧
    (analyze_role (liftExec (fun _ => (none : Option (List JVal))))
      (fun (s : Unit) _ _ _ => s) (fun _ _ _ => Except.error ())
      (.jobj [("role_name", .jstr "r"), ("schema_descriptions", .jobj []),
        ("tables", .jobj [])])
      none none none "orders" ()
      (some ⟨[.jobj [("formula", .jstr "SELECT AVG(price) FROM orders")]],
        [], .jarr []⟩)).persisted = some ⟨[], [], .jarr []⟩ ∧
    (some (⟨[], [], .jarr []⟩ : Plan)) ≠
      some ⟨[.jobj [("formula", .jstr "SELECT AVG(price) FROM orders")]],
        [], .jarr []⟩ := by
  refine ⟨rfl, rfl, rfl, ?_⟩
  intro h
  injection h with h1
  injection h1 with h2 h3
  exact List.noConfusion h2

/-- C2 (amended): unparseable LLM output is replaced by the parsed default
— the analysis context object, which carries no candidate keys — so
`analyze_role` succeeds with empty candidate lists and persists an empty
plan, overwriting any prior plan; no error is surfaced.  Structurally
invalid output can fail the operation: a non-iterable candidates value
(e.g. a bare number) raises `TypeError` at the loop, and a candidates list
containing a non-dict element raises `AttributeError` inside the discard
handler; in every such failure the result is `ok = false` and the prior
plan is left unchanged. -/
theorem c2_unparseable_output_not_fatal :
    (∀ {σ : Type} (exec : σ → String → Option (σ × List JVal))
       (upsertIns : σ → JVal → JVal → List String → σ)
       (genInsights : Option JVal → List JVal → Option JVal →
         Except Unit (List String))
       (rn sd tb : JVal) (tableName : String) (s0 : σ)
       (prior : Option Plan),
      analyze_role exec upsertIns genInsights
        (.jobj [("role_name", rn), ("schema_descriptions", sd),
          ("tables", tb)])
        none none none tableName s0 prior =
        ⟨true, none, some ⟨[], [], .jarr []⟩, s0,
          some ⟨[], [], .jarr []⟩⟩) ∧
    (∀ {σ : Type} (exec : σ → String → Option (σ × List JVal))
       (upsertIns : σ → JVal → JVal → List String → σ)
       (genInsights : Option JVal → List JVal → Option JVal →
         Except Unit (List String))
       (ctx : JVal) (conceptsResp chartsResp : Option JVal) (n : Int)
       (tableName : String) (s0 : σ) (prior : Option Plan),
      (analyze_role exec upsertIns genInsights ctx conceptsResp
        (some (.jnum n)) chartsResp tableName s0 prior).ok = false ∧
      (analyze_role exec upsertIns genInsights ctx conceptsResp
        (some (.jnum n)) chartsResp tableName s0 prior).persisted =
        prior) ∧
    (∀ {σ : Type} (exec : σ → String → Option (σ × List JVal))
       (upsertIns : σ → JVal → JVal → List String → σ)
       (genInsights : Option JVal → List JVal → Option JVal →
         Except Unit (List String))
       (ctx : JVal) (conceptsResp chartsResp : Option JVal)
       (kpiList : List JVal) (tableName : String) (s0 : σ)
       (prior : Option Plan),
      (∃ k ∈ kpiList, isObjB k = false) →
      (analyze_role exec upsertIns genInsights ctx conceptsResp
        (some (.jobj [("kpis", .jarr kpiList)])) chartsResp tableName s0
        prior).ok = false ∧
      (analyze_role exec upsertIns genInsights ctx conceptsResp
        (some (.jobj [("kpis", .jarr kpiList)])) chartsResp tableName s0
        prior).persisted = prior) := by
  refine ⟨fun _ _ _ _ _ _ _ _ _ => rfl,
    fun _ _ _ _ _ _ _ _ _ _ => ⟨rfl, rfl⟩, ?_⟩
  intro σ exec upsertIns genInsights ctx conceptsResp chartsResp kpiList
    tableName s0 prior hex
  have hfat : validateKpis exec tableName s0 kpiList = none :=
    validateKpis_fatal exec tableName kpiList s0 hex
  have hred : pyIter (candListOf (jsonFromModel
      (some (.jobj [("kpis", .jarr kpiList)])) ctx) "kpis") =
      some kpiList := rfl
  constructor
  · unfold analyze_role
    dsimp only
    rw [hred]
    dsimp only
    rw [hfat]
  · unfold analyze_role
    dsimp only
    rw [hred]
    dsimp only
    rw [hfat]

/-- Witness for C2 (amended): a KPI candidates list containing a bare SQL
string (a non-dict element) makes a concrete analyze run fail with the
prior plan kept. -/
theorem c2_witness :
    (analyze_role (liftExec (fun _ => (none : Option (List JVal))))
      (fun (s : Unit) _ _ _ => s) (fun _ _ _ => Except.error ())
      (.jobj [("role_name", .jstr "r")]) none
      (some (.jobj [("kpis", .jarr [.jstr "SELECT 1"])])) none "orders" ()
      (some ⟨[], [], .jarr []⟩)).ok = false ∧
    (analyze_role (liftExec (fun _ => (none : Option (List JVal))))
      (fun (s : Unit) _ _ _ => s) (fun _ _ _ => Except.error ())
      (.jobj [("role_name", .jstr "r")]) none
      (some (.jobj [("kpis", .jarr [.jstr "SELECT 1"])])) none "orders" ()
      (some ⟨[], [], .jarr []⟩)).persisted = some ⟨[], [], .jarr []⟩ :=
  c2_unparseable_output_not_fatal.2.2
    (liftExec (fun _ => (none : Option (List JVal))))
    (fun (s : Unit) _ _ _ => s) (fun _ _ _ => Except.error ())
    (.jobj [("role_name", .jstr "r")]) none none
    [.jstr "SELECT 1"] "orders" () (some ⟨[], [], .jarr []⟩)
    ⟨.jstr "SELECT 1", by simp, rfl⟩

/-- C7: a chart whose query executed successfully with at least one row is
retained in the validated list no matter what the insight oracle does (in
particular when insight generation raises), whenever the validation loop
completes; and the success/error outcome of `analyze_role` never depends on
the insight oracle. -/
theorem c7_insight_failure_nonfatal :
    (∀ {σ : Type} (exec : σ → String → Option (σ × List JVal))
       (upsertIns : σ → JVal → JVal → List String → σ)
       (genInsights : Option JVal → List JVal → Option JVal →
         Except Unit (List String))
       (s : σ) (chart : JVal) (rest : List JVal) (q : String) (s1 : σ)
       (rows : List JVal) (res : σ × List JVal),
      pySubscript chart "query_sql" = some (.jstr q) →
      exec s q = some (s1, rows) → rows ≠ [] →
      validateCharts exec upsertIns genInsights s (chart :: rest) =
        some res →
      chart ∈ res.2) ∧
    (∀ {σ : Type} (exec : σ → String → Option (σ × List JVal))
       (upsertIns : σ → JVal → JVal → List String → σ)
       (g1 g2 : Option JVal → List JVal → Option JVal →
         Except Unit (List String))
       (ctx : JVal) (conceptsResp kpisResp chartsResp : Option JVal)
       (tableName : String) (s0 : σ) (prior : Option Plan),
      (analyze_role exec upsertIns g1 ctx conceptsResp kpisResp chartsResp
        tableName s0 prior).ok =
        (analyze_role exec upsertIns g2 ctx conceptsResp kpisResp
          chartsResp tableName s0 prior).ok ∧
      (analyze_role exec upsertIns g1 ctx conceptsResp kpisResp chartsResp
        tableName s0 prior).error =
        (analyze_role exec upsertIns g2 ctx conceptsResp kpisResp
          chartsResp tableName s0 prior).error) := by
  constructor
  · intro σ exec upsertIns genInsights s chart rest q s1 rows res hq hexec
      hrows hv
    cases chart with
    | jobj fs =>
      have hql : jlookup fs "query_sql" = some (.jstr q) := by
        simpa [pySubscript] using hq
      have hemp : rows.isEmpty = false := by
        cases rows with
        | nil => exact absurd rfl hrows
        | cons a l => rfl
      rw [validateCharts] at hv
      rw [hql] at hv
      dsimp only at hv
      rw [hexec] at hv
      dsimp only at hv
      rw [if_neg (by simp [hemp])] at hv
      cases hrec : validateCharts exec upsertIns genInsights
          (chartInsightPhase upsertIns genInsights s1 (.jobj fs) rows)
          rest with
      | none => rw [hrec] at hv; simp at hv
      | some r =>
        rw [hrec] at hv
        simp only [Option.map_some', Option.some_inj] at hv
        subst hv
        exact List.mem_cons_self _ _
    | null => simp [pySubscript] at hq
    | jbool b => simp [pySubscript] at hq
    | jnum n => simp [pySubscript] at hq
    | jstr s2 => simp [pySubscript] at hq
    | jarr xs => simp [pySubscript] at hq
  · intro σ exec upsertIns g1 g2 ctx conceptsResp kpisResp chartsResp
      tableName s0 prior
    unfold analyze_role
    dsimp only
    cases h1 : pyIter (candListOf (jsonFromModel kpisResp ctx) "kpis") with
    | none => exact ⟨rfl, rfl⟩
    | some kpiList =>
      dsimp only
      cases hv1 : validateKpis exec tableName s0 kpiList with
      | none => exact ⟨rfl, rfl⟩
      | some kres =>
        dsimp only
        cases h2 : pyIter (candListOf (jsonFromModel chartsResp ctx)
            "charts") with
        | none => exact ⟨rfl, rfl⟩
        | some chartList =>
          dsimp only
          have hsome :
              (validateCharts exec upsertIns g1 kres.1 chartList).isSome =
              (validateCharts exec upsertIns g2 kres.1 chartList).isSome := by
            rw [validateCharts_isSome, validateCharts_isSome]
          cases hva : validateCharts exec upsertIns g1 kres.1 chartList with
          | none =>
            cases hvb : validateCharts exec upsertIns g2 kres.1
                chartList with
            | none => exact ⟨rfl, rfl⟩
            | some r2 => rw [hva, hvb] at hsome; simp at hsome
          | some r1 =>
            cases hvb : validateCharts exec upsertIns g2 kres.1
                chartList with
            | none => rw [hva, hvb] at hsome; simp at hsome
            | some r2 => exact ⟨rfl, rfl⟩

/-- Witness for C7 at a one-chart plan with an always-failing insight
oracle: the loop completes, the chart survives, and `analyze_role`'s
outcome with the failing oracle matches the outcome with a succeeding
oracle. -/
theorem c7_witness :
    (∃ res : Unit × List JVal,
      validateCharts
        (liftExec (fun q => if q = "Q" then some [JVal.jobj []] else none))
        (fun (s : Unit) _ _ _ => s) (fun _ _ _ => Except.error ()) ()
        [JVal.jobj [("id", .jstr "c1"), ("title", .jstr "T"),
          ("type", .jstr "bar"), ("query_sql", .jstr "Q")]] = some res ∧
      (JVal.jobj [("id", .jstr "c1"), ("title", .jstr "T"),
        ("type", .jstr "bar"), ("query_sql", .jstr "Q")]) ∈ res.2) ∧
    (analyze_role
      (liftExec (fun q => if q = "Q" then some [JVal.jobj []] else none))
      (fun (s : Unit) _ _ _ => s) (fun _ _ _ => Except.error ())
      (.jobj [("role_name", .jstr "r")])
      (some (.jobj [])) (some (.jarr [])) (some (.jarr [])) "orders" ()
      none).ok =
      (analyze_role
        (liftExec (fun q => if q = "Q" then some [JVal.jobj []] else none))
        (fun (s : Unit) _ _ _ => s) (fun _ _ _ => Except.ok ["i"])
        (.jobj [("role_name", .jstr "r")])
        (some (.jobj [])) (some (.jarr [])) (some (.jarr [])) "orders" ()
        none).ok := by
  constructor
  · refine ⟨((), [JVal.jobj [("id", .jstr "c1"), ("title", .jstr "T"),
      ("type", .jstr "bar"), ("query_sql", .jstr "Q")]]), rfl, ?_⟩
    exact c7_insight_failure_nonfatal.1
      (liftExec (fun q => if q = "Q" then some [JVal.jobj []] else none))
      (fun (s : Unit) _ _ _ => s) (fun _ _ _ => Except.error ()) ()
      (JVal.jobj [("id", .jstr "c1"), ("title", .jstr "T"),
        ("type", .jstr "bar"), ("query_sql", .jstr "Q")])
      [] "Q" () [JVal.jobj []]
      (((), [JVal.jobj [("id", .jstr "c1"), ("title", .jstr "T"),
        ("type", .jstr "bar"), ("query_sql", .jstr "Q")]]))
      rfl rfl (by simp) rfl
  · exact (c7_insight_failure_nonfatal.2
      (liftExec (fun q => if q = "Q" then some [JVal.jobj []] else none))
      (fun (s : Unit) _ _ _ => s) (fun _ _ _ => Except.error ())
      (fun _ _ _ => Except.ok ["i"])
      (.jobj [("role_name", .jstr "r")])
      (some (.jobj [])) (some (.jarr [])) (some (.jarr [])) "orders" ()
      none).1

theorem getIdsOf_any (X : String) :
    ∀ (cs : List JVal) (ids : List (Option JVal)), getIdsOf cs = some ids →
      ids.any (fun o => optIsStr o X) =
        cs.any (fun c => optIsStr (pyGet c "id") X) := by
  intro cs
  induction cs with
  | nil =>
    intro ids h
    simp [getIdsOf] at h
    subst h
    rfl
  | cons c rest ih =>
    intro ids h
    cases c with
    | jobj fs =>
      simp only [getIdsOf] at h
      cases hr : getIdsOf rest with
      | none => rw [hr] at h; simp at h
      | some ids' =>
        rw [hr] at h
        simp only [Option.map_some', Option.some_inj] at h
        subst h
        simp [List.any_cons, pyGet, ih ids' hr]
    | null => simp [getIdsOf] at h
    | jbool b => simp [getIdsOf] at h
    | jnum n => simp [getIdsOf] at h
    | jstr s2 => simp [getIdsOf] at h
    | jarr xs => simp [getIdsOf] at h

theorem filter_map_replace (p : JVal → Bool) (obj : JVal) (hobj : p obj = true) :
    ∀ cs : List JVal,
      ((cs.map (fun c => if p c then obj else c)).filter p) =
        (cs.filter p).map (fun _ => obj) := by
  intro cs
  induction cs with
  | nil => rfl
  | cons c rest ih =>
    by_cases hc : p c
    · simp [hc, hobj, ih]
    · simp [hc, ih]

theorem filterNot_map_replace (p : JVal → Bool) (obj : JVal)
    (hobj : p obj = true) :
    ∀ cs : List JVal,
      ((cs.map (fun c => if p c then obj else c)).filter (fun c => !(p c))) =
        cs.filter (fun c => !(p c)) := by
  intro cs
  induction cs with
  | nil => rfl
  | cons c rest ih =>
    by_cases hc : p c
    · simp [hc, hobj, ih]
    · simp [hc, ih]

theorem upsertChart_filter (cs : List JVal) (X : String) (obj : JVal)
    (cs' : List JVal) (hobj : optIsStr (pyGet obj "id") X = true)
    (hcount : cs.countP (fun c => optIsStr (pyGet c "id") X) ≤ 1)
    (h : upsertChart cs X obj = some cs') :
    cs'.filter (fun c => optIsStr (pyGet c "id") X) = [obj] ∧
    cs'.filter (fun c => !(optIsStr (pyGet c "id") X)) =
      cs.filter (fun c => !(optIsStr (pyGet c "id") X)) := by
  unfold upsertChart at h
  cases hids : getIdsOf cs with
  | none => rw [hids] at h; simp at h
  | some ids =>
    rw [hids] at h
    dsimp only at h
    rw [getIdsOf_any X cs ids hids] at h
    by_cases hany : cs.any (fun c => optIsStr (pyGet c "id") X)
    · rw [if_pos hany, Option.some_inj] at h
      subst h
      have hpos : 0 < cs.countP (fun c => optIsStr (pyGet c "id") X) := by
        rw [List.countP_pos_iff]
        obtain ⟨c0, hc0, hpc0⟩ := List.any_eq_true.mp hany
        exact ⟨c0, hc0, hpc0⟩
      have hone : cs.countP (fun c => optIsStr (pyGet c "id") X) = 1 := by
        omega
      have hflen : (cs.filter (fun c => optIsStr (pyGet c "id") X)).length = 1 := by
        rw [← List.countP_eq_length_filter]
        exact hone
      obtain ⟨c0, hc0⟩ := List.length_eq_one.mp hflen
      constructor
      · rw [filter_map_replace _ obj hobj cs, hc0]
        rfl
      · exact filterNot_map_replace _ obj hobj cs
    · rw [if_neg hany, Option.some_inj] at h
      subst h
      have hnone : ∀ c ∈ cs, optIsStr (pyGet c "id") X = false := by
        intro c hc
        by_contra hcc
        exact hany (List.any_eq_true.mpr ⟨c, hc, by
          cases hh : optIsStr (pyGet c "id") X
          · exact absurd hh hcc
          · rfl⟩)
      constructor
      · rw [List.filter_append]
        rw [List.filter_eq_nil_iff.mpr (by
          intro c hc
          simp [hnone c hc])]
        simp [hobj]
      · rw [List.filter_append]
        simp [hobj]

/-- C8: on a stored plan whose charts contain at most one entry with id `X`,
upserting chart `A` with id `X` and then chart `B` with id `X` leaves the
stored plan with exactly one chart carrying id `X`, namely `B`; `A`'s
content does not survive, every chart with a different id is untouched, and
the plan's other entries (`kpis`, `insights`) are unchanged. -/
theorem c8_upsert_replace_by_id :
    ∀ (stored : Plan) (X : String) (A B : JVal)
      (fsA fsB : List (String × JVal)) (p1 p2 : Plan),
      A = .jobj fsA → jlookup fsA "id" = some (.jstr X) →
      B = .jobj fsB → jlookup fsB "id" = some (.jstr X) →
      stored.charts.countP (fun c => optIsStr (pyGet c "id") X) ≤ 1 →
      planUpsertChart stored X A = some p1 →
      planUpsertChart p1 X B = some p2 →
      p2.charts.filter (fun c => optIsStr (pyGet c "id") X) = [B] ∧
      (A ≠ B → A ∉ p2.charts) ∧
      p2.charts.filter (fun c => !(optIsStr (pyGet c "id") X)) =
        stored.charts.filter (fun c => !(optIsStr (pyGet c "id") X)) ∧
      p2.kpis = stored.kpis ∧ p2.insights = stored.insights := by
  intro stored X A B fsA fsB p1 p2 hA hAid hB hBid hcount h1 h2
  have hpA : optIsStr (pyGet A "id") X = true := by
    subst hA
    simp [pyGet, hAid, optIsStr]
  have hpB : optIsStr (pyGet B "id") X = true := by
    subst hB
    simp [pyGet, hBid, optIsStr]
  unfold planUpsertChart at h1 h2
  cases hu1 : upsertChart stored.charts X A with
  | none => rw [hu1] at h1; simp at h1
  | some cs1 =>
    rw [hu1] at h1
    simp only [Option.map_some', Option.some_inj] at h1
    cases hu2 : upsertChart p1.charts X B with
    | none => rw [hu2] at h2; simp at h2
    | some cs2 =>
      rw [hu2] at h2
      simp only [Option.map_some', Option.some_inj] at h2
      have hch1 : p1.charts = cs1 := by rw [← h1]
      rw [hch1] at hu2
      obtain ⟨hf1, hn1⟩ := upsertChart_filter stored.charts X A cs1 hpA
        hcount hu1
      have hcount1 : cs1.countP (fun c => optIsStr (pyGet c "id") X) ≤ 1 := by
        rw [List.countP_eq_length_filter, hf1]
        simp
      obtain ⟨hf2, hn2⟩ := upsertChart_filter cs1 X B cs2 hpB hcount1 hu2
      have hch2 : p2.charts = cs2 := by rw [← h2]
      refine ⟨by rw [hch2]; exact hf2, ?_, ?_, ?_, ?_⟩
      · intro hne hmem
        rw [hch2] at hmem
        have : A ∈ cs2.filter (fun c => optIsStr (pyGet c "id") X) :=
          List.mem_filter.mpr ⟨hmem, hpA⟩
        rw [hf2] at this
        exact hne (List.mem_singleton.mp this)
      · rw [hch2]
        exact hn2.trans hn1
      · rw [← h2, ← h1]
      · rw [← h2, ← h1]

/-- Witness for C8: on a plan holding charts `x` and `y`, upserting
definition A then definition B for id `x` leaves exactly B stored under `x`,
A's content gone, and chart `y` untouched. -/
theorem c8_witness :
    (([.jobj [("id", .jstr "x"), ("title", .jstr "B-def")],
       .jobj [("id", .jstr "y"), ("title", .jstr "other")]] : List JVal).filter
      (fun c => optIsStr (pyGet c "id") "x") =
      [.jobj [("id", .jstr "x"), ("title", .jstr "B-def")]]) ∧
    ((JVal.jobj [("id", .jstr "x"), ("title", .jstr "A-def")]) ≠
        .jobj [("id", .jstr "x"), ("title", .jstr "B-def")] →
      (JVal.jobj [("id", .jstr "x"), ("title", .jstr "A-def")]) ∉
        ([.jobj [("id", .jstr "x"), ("title", .jstr "B-def")],
          .jobj [("id", .jstr "y"), ("title", .jstr "other")]] : List JVal)) := by
  have h := c8_upsert_replace_by_id
    ⟨[.jobj [("k", .jnum 1)]],
      [.jobj [("id", .jstr "x"), ("title", .jstr "old")],
       .jobj [("id", .jstr "y"), ("title", .jstr "other")]], .jarr []⟩
    "x"
    (.jobj [("id", .jstr "x"), ("title", .jstr "A-def")])
    (.jobj [("id", .jstr "x"), ("title", .jstr "B-def")])
    [("id", .jstr "x"), ("title", .jstr "A-def")]
    [("id", .jstr "x"), ("title", .jstr "B-def")]
    ⟨[.jobj [("k", .jnum 1)]],
      [.jobj [("id", .jstr "x"), ("title", .jstr "A-def")],
       .jobj [("id", .jstr "y"), ("title", .jstr "other")]], .jarr []⟩
    ⟨[.jobj [("k", .jnum 1)]],
      [.jobj [("id", .jstr "x"), ("title", .jstr "B-def")],
       .jobj [("id", .jstr "y"), ("title", .jstr "other")]], .jarr []⟩
    rfl rfl rfl rfl (by decide) rfl rfl
  exact ⟨h.1, h.2.1⟩

theorem getIdsOf_isSome_of_objs :
    ∀ cs : List JVal, (∀ c ∈ cs, isObjB c = true) →
      (getIdsOf cs).isSome = true := by
  intro cs
  induction cs with
  | nil => intro _; rfl
  | cons c rest ih =>
    intro h
    have hc := h c (List.mem_cons_self c rest)
    cases c with
    | jobj fs =>
      have hr := ih (fun x hx => h x (List.mem_cons_of_mem _ hx))
      cases hids : getIdsOf rest with
      | none => rw [hids] at hr; simp at hr
      | some ids => simp [getIdsOf, hids]
    | null => simp [isObjB] at hc
    | jbool b => simp [isObjB] at hc
    | jnum n => simp [isObjB] at hc
    | jstr s2 => simp [isObjB] at hc
    | jarr xs => simp [isObjB] at hc

theorem length_filterNot_lt_of_mem (p : JVal → Bool) :
    ∀ (cs : List JVal) (c : JVal), c ∈ cs → p c = true →
      (cs.filter (fun x => !(p x))).length < cs.length := by
  intro cs
  induction cs with
  | nil => intro c hc _; simp at hc
  | cons a rest ih =>
    intro c hc hp
    rw [List.filter_cons]
    rcases List.mem_cons.mp hc with hEq | hMem
    · subst hEq
      have hle := List.length_filter_le (fun x => !(p x)) rest
      simp [hp]
      omega
    · cases ha : p a with
      | true =>
        have hle := ih c hMem hp
        simp [ha]
        omega
      | false =>
        have hlt := ih c hMem hp
        simp [ha]
        omega

/-- C9: on a plan whose chart entries are objects, deleting a chart id that
no chart carries answers not-found and leaves the stored plan entirely
unchanged; deleting an id some chart carries removes exactly the entries
with that id and leaves every other chart, all KPIs and all insights
unchanged. -/
theorem c9_delete_chart_safe :
    ∀ (stored : Plan) (chartId : String),
      (∀ c ∈ stored.charts, isObjB c = true) →
      ((∀ c ∈ stored.charts, optIsStr (pyGet c "id") chartId = false) →
        deleteChartRoute stored chartId = ⟨.notFound, stored⟩) ∧
      (∀ c0 ∈ stored.charts, optIsStr (pyGet c0 "id") chartId = true →
        (deleteChartRoute stored chartId).result = .deleted ∧
        (deleteChartRoute stored chartId).stored.charts =
          stored.charts.filter
            (fun c => !(optIsStr (pyGet c "id") chartId)) ∧
        (deleteChartRoute stored chartId).stored.kpis = stored.kpis ∧
        (deleteChartRoute stored chartId).stored.insights =
          stored.insights) := by
  intro stored chartId hobjs
  have hids := getIdsOf_isSome_of_objs stored.charts hobjs
  cases hg : getIdsOf stored.charts with
  | none => rw [hg] at hids; simp at hids
  | some ids =>
    constructor
    · intro hnone
      have hself : stored.charts.filter
          (fun c => !(optIsStr (pyGet c "id") chartId)) = stored.charts := by
        refine List.filter_eq_self.mpr ?_
        intro a ha
        simp [hnone a ha]
      unfold deleteChartRoute
      rw [hg]
      dsimp only
      rw [hself]
      simp
    · intro c0 hc0 hp0
      have hlt := length_filterNot_lt_of_mem
        (fun c => optIsStr (pyGet c "id") chartId) stored.charts c0 hc0 hp0
      have hlt' : (stored.charts.filter
          (fun c => !(optIsStr (pyGet c "id") chartId))).length <
          stored.charts.length := hlt
      unfold deleteChartRoute
      rw [hg]
      dsimp only
      rw [if_neg (by omega)]
      exact ⟨rfl, rfl, rfl, rfl⟩

/-- Witness for C9: a two-chart plan; deleting the absent id `z` answers
not-found and keeps the plan intact, deleting the present id `x` removes
only that chart. -/
theorem c9_witness :
    deleteChartRoute
      ⟨[.jobj [("k", .jnum 1)]],
        [.jobj [("id", .jstr "x")], .jobj [("id", .jstr "y")]],
        .jarr [.jstr "note"]⟩ "z" =
      ⟨.notFound,
        ⟨[.jobj [("k", .jnum 1)]],
          [.jobj [("id", .jstr "x")], .jobj [("id", .jstr "y")]],
          .jarr [.jstr "note"]⟩⟩ ∧
    (deleteChartRoute
      ⟨[.jobj [("k", .jnum 1)]],
        [.jobj [("id", .jstr "x")], .jobj [("id", .jstr "y")]],
        .jarr [.jstr "note"]⟩ "x").result = .deleted ∧
    (deleteChartRoute
      ⟨[.jobj [("k", .jnum 1)]],
        [.jobj [("id", .jstr "x")], .jobj [("id", .jstr "y")]],
        .jarr [.jstr "note"]⟩ "x").stored.charts =
      ([.jobj [("id", .jstr "x")], .jobj [("id", .jstr "y")]] :
        List JVal).filter
        (fun c => !(optIsStr (pyGet c "id") "x")) ∧
    (deleteChartRoute
      ⟨[.jobj [("k", .jnum 1)]],
        [.jobj [("id", .jstr "x")], .jobj [("id", .jstr "y")]],
        .jarr [.jstr "note"]⟩ "x").stored.kpis = [.jobj [("k", .jnum 1)]] := by
  have hA := (c9_delete_chart_safe
    ⟨[.jobj [("k", .jnum 1)]],
      [.jobj [("id", .jstr "x")], .jobj [("id", .jstr "y")]],
      .jarr [.jstr "note"]⟩ "z" (by decide)).1 (by decide)
  have hB := (c9_delete_chart_safe
    ⟨[.jobj [("k", .jnum 1)]],
      [.jobj [("id", .jstr "x")], .jobj [("id", .jstr "y")]],
      .jarr [.jstr "note"]⟩ "x" (by decide)).2
    (.jobj [("id", .jstr "x")]) (by simp) (by decide)
  exact ⟨hA, hB.1, hB.2.1, hB.2.2.1⟩

theorem head?_mem_chars : ∀ (l : List Char) (c : Char),
    l.head? = some c → c ∈ l := by
  intro l c h
  cases l with
  | nil => simp at h
  | cons a t =>
    simp only [List.head?_cons, Option.some_inj] at h
    subst h
    exact List.mem_cons_self _ _

theorem allowed_not_white (c : Char) (h1 : allowedNameChar c = true)
    (h2 : c ≠ ' ') : isPyWhite c = false := by
  by_contra hw
  have hw' : isPyWhite c = true := by
    cases h : isPyWhite c
    · exact absurd h hw
    · rfl
  simp only [isPyWhite, Bool.or_eq_true, decide_eq_true_eq] at hw'
  rcases hw' with ((((h | h) | h) | h) | h) | h
  · exact h2 h
  all_goals (subst h; exact absurd h1 (by decide))

theorem dropWhile_eq_self_of_headPy (l : List Char)
    (h : ∀ c, l.head? = some c → isPyWhite c = false) :
    l.dropWhile isPyWhite = l := by
  cases l with
  | nil => rfl
  | cons a t =>
    have ha := h a rfl
    simp [List.dropWhile_cons, ha]

theorem stripChars_eq_self (l : List Char)
    (h1 : ∀ c, l.head? = some c → isPyWhite c = false)
    (h2 : ∀ c, l.reverse.head? = some c → isPyWhite c = false) :
    stripChars l = l := by
  unfold stripChars
  rw [dropWhile_eq_self_of_headPy l h1, dropWhile_eq_self_of_headPy l.reverse h2,
    List.reverse_reverse]

theorem sanitizeKey_eq_configKey (name : String)
    (hall : ∀ c ∈ name.toList, allowedNameChar c = true)
    (hh : name.toList.head? ≠ some ' ')
    (hl : name.toList.reverse.head? ≠ some ' ') :
    sanitizeKey name = configKey name := by
  unfold sanitizeKey configKey
  rw [List.filter_eq_self.mpr hall]
  rw [stripChars_eq_self name.toList ?h1 ?h2]
  case h1 =>
    intro c hc
    refine allowed_not_white c (hall c (head?_mem_chars _ c hc)) ?_
    intro hsp
    exact hh (hsp ▸ hc)
  case h2 =>
    intro c hc
    have hcm : c ∈ name.toList := List.mem_reverse.mp (head?_mem_chars _ c hc)
    refine allowed_not_white c (hall c hcm) ?_
    intro hsp
    exact hl (hsp ▸ hc)

theorem storeFind_write_self : ∀ (st : ConfigStore) (k : List Char)
    (v : RoleConfig), storeFind (storeWrite st k v) k = some v := by
  intro st
  induction st with
  | nil => intro k v; simp [storeWrite, storeFind]
  | cons p rest ih =>
    intro k v
    obtain ⟨k0, v0⟩ := p
    by_cases h0 : k0 = k
    · subst h0
      simp [storeWrite, storeFind]
    · simp [storeWrite, storeFind, h0, ih]

theorem length_filter_lt_of_mem_not (p : Char → Bool) :
    ∀ (l : List Char) (c : Char), c ∈ l → p c = false →
      (l.filter p).length < l.length := by
  intro l
  induction l with
  | nil => intro c hc _; simp at hc
  | cons a rest ih =>
    intro c hc hp
    rw [List.filter_cons]
    rcases List.mem_cons.mp hc with hEq | hMem
    · subst hEq
      have hle := List.length_filter_le p rest
      simp [hp]
      omega
    · cases ha : p a with
      | true =>
        have hlt := ih c hMem hp
        simp [ha]
        omega
      | false =>
        have hlt := ih c hMem hp
        simp [ha]
        omega

theorem length_dropWhile_le_chars (p : Char → Bool) :
    ∀ l : List Char, (l.dropWhile p).length ≤ l.length := by
  intro l
  induction l with
  | nil => simp
  | cons a t ih =>
    rw [List.dropWhile_cons]
    cases h : p a with
    | true =>
      simp [h]
      exact Nat.le_succ_of_le ih
    | false => simp [h]

theorem stripChars_length_le (l : List Char) :
    (stripChars l).length ≤ l.length := by
  unfold stripChars
  calc ((l.dropWhile isPyWhite).reverse.dropWhile isPyWhite).reverse.length
      = ((l.dropWhile isPyWhite).reverse.dropWhile isPyWhite).length :=
        List.length_reverse _
    _ ≤ (l.dropWhile isPyWhite).reverse.length :=
        length_dropWhile_le_chars _ _
    _ = (l.dropWhile isPyWhite).length := List.length_reverse _
    _ ≤ l.length := length_dropWhile_le_chars _ _

/-- C10 counterexample: the role name `" a"` consists solely of allowed
characters (a space and a letter), and `create_role` succeeds — but
`create_role` files the config under the raw space-replaced key `"_a"`
(roles.py line 117) while `get_role_config` looks up the filtered-and-
stripped key `"a"` (line 422), so the round-trip read returns nothing. -/
theorem c10_counterexample :
    (∀ c ∈ " a".toList, allowedNameChar c = true) ∧
    (create_role [] " a" "proj" "ds" ["t"] "" true "now").ok = true ∧
    get_role_config (create_role [] " a" "proj" "ds" ["t"] "" true "now").store
      " a" = none := by
  refine ⟨by decide, rfl, rfl⟩

/-- C10 (amended): the createRole/getRoleConfig round-trip holds for names
of allowed characters (alphanumerics, hyphens, underscores, spaces) that
additionally have no leading or trailing space; and a name containing any
disallowed character, created into an empty store, cannot be read back —
the lookup key is strictly shorter than the storage key, so
`get_role_config` returns nothing. -/
theorem c10_roundtrip_sanitizer_stable :
    (∀ (store : ConfigStore) (roleName gcp ds now : String)
       (tables : List String),
      roleName ≠ "" → gcp ≠ "" → ds ≠ "" → tables ≠ [] →
      (∀ c ∈ roleName.toList, allowedNameChar c = true) →
      roleName.toList.head? ≠ some ' ' →
      roleName.toList.reverse.head? ≠ some ' ' →
      (create_role store roleName gcp ds tables "" true now).ok = true ∧
      get_role_config
        (create_role store roleName gcp ds tables "" true now).store
        roleName = some ⟨roleName, gcp, ds, tables, false, now, 0, []⟩) ∧
    (∀ (roleName gcp ds now : String) (tables : List String) (c : Char),
      roleName ≠ "" → gcp ≠ "" → ds ≠ "" → tables ≠ [] →
      c ∈ roleName.toList → allowedNameChar c = false →
      get_role_config
        (create_role [] roleName gcp ds tables "" true now).store
        roleName = none) := by
  constructor
  · intro store roleName gcp ds now tables h1 h2 h3 h4 hall hh hl
    have hkey := sanitizeKey_eq_configKey roleName hall hh hl
    have hcr : create_role store roleName gcp ds tables "" true now =
        ⟨true, none, storeWrite store (configKey roleName)
          ⟨roleName, gcp, ds, tables, false, now, 0, []⟩⟩ := by
      unfold create_role
      rw [if_neg (by simp [h1, h2, h3, h4])]
      dsimp only
      rw [if_neg (by decide)]
      rfl
    rw [hcr]
    refine ⟨rfl, ?_⟩
    unfold get_role_config
    rw [hkey]
    exact storeFind_write_self store (configKey roleName) _
  · intro roleName gcp ds now tables c h1 h2 h3 h4 hc hbad
    have hlen : (sanitizeKey roleName).length < (configKey roleName).length := by
      unfold sanitizeKey configKey
      rw [List.length_map, List.length_map]
      calc (stripChars (roleName.toList.filter allowedNameChar)).length
          ≤ (roleName.toList.filter allowedNameChar).length :=
            stripChars_length_le _
        _ < roleName.toList.length :=
            length_filter_lt_of_mem_not allowedNameChar roleName.toList c hc
              hbad
    have hne : configKey roleName ≠ sanitizeKey roleName := by
      intro h
      rw [h] at hlen
      omega
    have hcr : (create_role [] roleName gcp ds tables "" true now).store =
        [(configKey roleName,
          ⟨roleName, gcp, ds, tables, false, now, 0, []⟩)] := by
      unfold create_role
      rw [if_neg (by simp [h1, h2, h3, h4])]
      dsimp only
      rw [if_neg (by decide)]
      rfl
    rw [hcr]
    unfold get_role_config storeFind
    rw [if_neg hne]
    rfl

/-- Witness for C10 (amended): the round-trip succeeds for
`"Pricing Analyst"`, and fails (returns nothing) for `"a/b"`, whose slash
is filtered out of the lookup key. -/
theorem c10_witness :
    (create_role [] "Pricing Analyst" "proj" "ds" ["orders"] "" true
      "now").ok = true ∧
    get_role_config
      (create_role [] "Pricing Analyst" "proj" "ds" ["orders"] "" true
        "now").store "Pricing Analyst" =
      some ⟨"Pricing Analyst", "proj", "ds", ["orders"], false, "now", 0,
        []⟩ ∧
    get_role_config
      (create_role [] "a/b" "proj" "ds" ["orders"] "" true "now").store
      "a/b" = none := by
  have hA := c10_roundtrip_sanitizer_stable.1 [] "Pricing Analyst" "proj"
    "ds" "now" ["orders"] (by decide) (by decide) (by decide) (by simp)
    (by decide) (by decide) (by decide)
  have hB := c10_roundtrip_sanitizer_stable.2 "a/b" "proj" "ds" "now"
    ["orders"] '/' (by decide) (by decide) (by decide) (by simp)
    (by decide) (by decide)
  exact ⟨hA.1, hA.2, hB⟩
